import Mathlib

/-!
Verification of the hull-visualizer reconstruction pipeline.

The TypeScript source is shallowly embedded here over exact rational
arithmetic (`ℚ`): JavaScript numbers are IEEE doubles, but every claim
checked below concerns exact structural behaviour (counts, membership,
fallbacks, bookkeeping), for which `ℚ` is the faithful idealisation.
Floating-point special values (NaN/Infinity) matter for one claim only;
for that claim a dedicated scalar type `F` with IEEE-like special-value
propagation is used further down.
-/

namespace HullSpec

/-- 3D point, mirroring `THREE.Vector3` as used by the generators. -/
structure Vec3 where
  x : ℚ
  y : ℚ
  z : ℚ
deriving DecidableEq, Repr

/-- `WaterlineData` from `types.ts`: `halfBreadthStarboard` is optional. -/
structure WaterlineData where
  height : ℚ
  halfBreadthPort : ℚ
  halfBreadthStarboard : Option ℚ
deriving DecidableEq, Repr

/-- `Station` from `types.ts`. -/
structure Station where
  position : ℚ
  waterlines : List WaterlineData
deriving DecidableEq, Repr

/-- The three supported unit systems. -/
inductive MUnits where
  | m
  | mm
  | ft
deriving DecidableEq, Repr

/-- The advisory symmetry flag of `QuoteTableMetadata`. -/
inductive Symmetry where
  | symmetric
  | asymmetric
deriving DecidableEq, Repr

/-- `QuoteTableMetadata` from `types.ts`; `hasKeel`, `hasChine` and
`symmetry` are optional fields of the TS interface. -/
structure QuoteTableMetadata where
  weight : ℚ
  hasKeel : Option Bool
  hasChine : Option Bool
  thickness : ℚ
  units : MUnits
  symmetry : Option Symmetry
deriving DecidableEq, Repr

/-- `QuoteTable` from `types.ts`. -/
structure QuoteTable where
  stations : List Station
  metadata : QuoteTableMetadata
deriving DecidableEq, Repr

/-- `LODConfig`. -/
structure LODConfig where
  stationMultiplier : ℚ
  waterlineMultiplier : ℚ
  enableSmoothing : Bool
deriving DecidableEq, Repr

/-- `getUnitScale` (getters.ts): mm→0.001, ft→0.3048, m→1. -/
def getUnitScale (u : MUnits) : ℚ :=
  match u with
  | .mm => 1 / 1000
  | .ft => 3048 / 10000
  | .m => 1

/-- Ordering used by `getSortedStations`'s comparator
`(a, b) => a.position - b.position`. -/
def stationLE (a b : Station) : Prop := a.position ≤ b.position

instance : DecidableRel stationLE := fun a b => by
  unfold stationLE; infer_instance

instance : IsTotal Station stationLE :=
  ⟨fun a b => le_total a.position b.position⟩

instance : IsTrans Station stationLE :=
  ⟨fun _ _ _ hab hbc => le_trans hab hbc⟩

/-- `getSortedStations` (getters.ts): a stable sort of the stations by
position (JS `Array.prototype.sort` is stable; insertion sort by `≤` on
the key is the unique stable sort for this comparator). -/
def getSortedStations (t : QuoteTable) : List Station :=
  t.stations.insertionSort stationLE

/-- First-occurrence deduplication, mirroring insertion into a JS `Set`. -/
def dedupFirst (l : List ℚ) : List ℚ :=
  l.foldl (fun acc a => if a ∈ acc then acc else acc ++ [a]) []

/-- `getSortedWaterlines` (getters.ts): all distinct waterline heights in
the table, sorted ascending. -/
def getSortedWaterlines (t : QuoteTable) : List ℚ :=
  (dedupFirst (t.stations.foldl (fun acc st =>
    acc ++ st.waterlines.map (·.height)) [])).insertionSort (· ≤ ·)

/-- `getWaterlineData` (getters.ts): index-based access into the raw
(unsorted) table, `null` when either index is absent. -/
def getWaterlineData (t : QuoteTable) (station waterline : ℕ) :
    Option WaterlineData :=
  match t.stations.get? station with
  | none => none
  | some st => st.waterlines.get? waterline

/-- Side selector for half-breadth lookups. -/
inductive Side where
  | port
  | starboard
deriving DecidableEq, Repr

/-- `getHalfBreadth` (getters.ts): starboard falls back to the port value
when `halfBreadthStarboard` is undefined; 0 when the sample is missing. -/
def getHalfBreadth (t : QuoteTable) (station waterline : ℕ) (side : Side) : ℚ :=
  match getWaterlineData t station waterline with
  | none => 0
  | some data =>
    match side, data.halfBreadthStarboard with
    | .starboard, some sb => sb
    | _, _ => data.halfBreadthPort

/-! ### Vertex generation (generators/vertices.ts) -/

/-- Tag part of a vertex-map key (`star`, `port`, `chine_star`, `chine_port`). -/
inductive VTag where
  | star
  | port
  | chineStar
  | chinePort
deriving DecidableEq, Repr

/-- Key of the vertex lookup `vertexMap`, `"${sIdx}_${wIdx}_${tag}"`. -/
structure VKey where
  s : ℕ
  w : ℕ
  tag : VTag
deriving DecidableEq, Repr

/-- The vertex lookup: an association list standing in for the JS record
(keys are inserted at most once per generation run). -/
abbrev VMap : Type := List (VKey × ℕ)

/-- Lookup in the vertex map (`vertexMap[key]`, undefined ↦ `none`). -/
def vmapFind (m : VMap) (k : VKey) : Option ℕ :=
  (m.find? (fun e => e.1 = k)).map (·.2)

/-- Accumulator of `generateVertices`: the growing vertex buffer, the
vertex lookup and the per-station keel vertex indices. -/
structure GenAcc where
  vertices : List Vec3
  vmap : VMap
  keel : List ℕ
deriving Repr

/-- Body of the inner `sortedWaterlines.forEach` of `generateVertices`:
processes one (station, waterline-height) pair. -/
def genWaterlineStep (scale : ℚ) (hasKeel hasChine : Bool) (sIdx : ℕ)
    (station : Station) (wIdx : ℕ) (wH : ℚ) (acc : GenAcc) : GenAcc :=
  match station.waterlines.find? (fun wl => wl.height = wH) with
  | none => acc
  | some wlData =>
    let zPos := station.position * scale
    let yPos := wH * scale
    let halfBreadthPort := wlData.halfBreadthPort
    let halfBreadthStarboard :=
      wlData.halfBreadthStarboard.getD halfBreadthPort
    let xPort := halfBreadthPort * scale
    let xStarboard := halfBreadthStarboard * scale
    -- the `isNaN` guard of the source cannot fire over ℚ (see the `F`
    -- scalar further down for the floating-point treatment)
    let acc :=
      if hasKeel && wIdx == 0 then
        let keelVertex : Vec3 := ⟨0, yPos - (5 / 100) * scale, zPos⟩
        { acc with
          vertices := acc.vertices ++ [keelVertex]
          keel := acc.keel ++ [acc.vertices.length] }
      else acc
    let starboardIndex := acc.vertices.length
    let acc := { acc with
      vertices := acc.vertices ++ [Vec3.mk xStarboard yPos zPos] }
    let portIndex := acc.vertices.length
    let acc := { acc with
      vertices := acc.vertices ++ [Vec3.mk (-xPort) yPos zPos]
      vmap := acc.vmap ++
        [(VKey.mk sIdx wIdx .star, starboardIndex), (VKey.mk sIdx wIdx .port, portIndex)] }
    if hasChine && wIdx == 0 then
      let chineStarboardIndex := acc.vertices.length
      let acc := { acc with
        vertices := acc.vertices ++ [Vec3.mk (xStarboard * (8 / 10)) yPos zPos] }
      let chinePortIndex := acc.vertices.length
      { acc with
        vertices := acc.vertices ++ [Vec3.mk (-(xPort * (8 / 10))) yPos zPos]
        vmap := acc.vmap ++
          [(VKey.mk sIdx wIdx .chineStar, chineStarboardIndex),
           (VKey.mk sIdx wIdx .chinePort, chinePortIndex)] }
    else acc

/-- `generateVertices` (generators/vertices.ts). `scale` is
`stateManager.getUnits()`, i.e. `getUnitScale` of the table's units as
set by `loadHullFromQuoteTable`. -/
def generateVertices (scale : ℚ) (t : QuoteTable) : GenAcc :=
  let hasKeel := t.metadata.hasKeel.getD false
  let hasChine := t.metadata.hasChine.getD false
  let sortedStations := getSortedStations t
  let sortedWaterlines := getSortedWaterlines t
  sortedStations.enum.foldl (fun acc (sp : ℕ × Station) =>
    sortedWaterlines.enum.foldl (fun acc (wp : ℕ × ℚ) =>
      genWaterlineStep scale hasKeel hasChine sp.1 sp.2 wp.1 wp.2 acc)
      acc) ⟨[], [], []⟩

/-! ### Face generation (generators/faces.ts, chine.ts, keel.ts) -/

/-- The eight corner lookups of `getPanelVertices` (getters.ts). -/
structure PanelVertices where
  topLeft : Option ℕ
  topRight : Option ℕ
  bottomRight : Option ℕ
  bottomLeft : Option ℕ
  topLeftPort : Option ℕ
  topRightPort : Option ℕ
  bottomRightPort : Option ℕ
  bottomLeftPort : Option ℕ
deriving DecidableEq, Repr

/-- `getPanelVertices` (getters.ts). -/
def getPanelVertices (m : VMap) (s w : ℕ) : PanelVertices where
  topLeft := vmapFind m ⟨s, w, .star⟩
  topRight := vmapFind m ⟨s + 1, w, .star⟩
  bottomRight := vmapFind m ⟨s + 1, w + 1, .star⟩
  bottomLeft := vmapFind m ⟨s, w + 1, .star⟩
  topLeftPort := vmapFind m ⟨s, w, .port⟩
  topRightPort := vmapFind m ⟨s + 1, w, .port⟩
  bottomRightPort := vmapFind m ⟨s + 1, w + 1, .port⟩
  bottomLeftPort := vmapFind m ⟨s, w + 1, .port⟩

/-- The eight lookups of `getChineVertices` (getters.ts). -/
structure ChineVertices where
  chineTopLeft : Option ℕ
  chineTopRight : Option ℕ
  chineBottomLeft : Option ℕ
  chineBottomRight : Option ℕ
  chineTopLeftPort : Option ℕ
  chineTopRightPort : Option ℕ
  chineBottomLeftPort : Option ℕ
  chineBottomRightPort : Option ℕ
deriving DecidableEq, Repr

/-- `getChineVertices` (getters.ts). -/
def getChineVertices (m : VMap) (s w : ℕ) : ChineVertices where
  chineTopLeft := vmapFind m ⟨s, w, .chineStar⟩
  chineTopRight := vmapFind m ⟨s + 1, w, .chineStar⟩
  chineBottomLeft := vmapFind m ⟨s, w + 1, .star⟩
  chineBottomRight := vmapFind m ⟨s + 1, w + 1, .star⟩
  chineTopLeftPort := vmapFind m ⟨s, w, .chinePort⟩
  chineTopRightPort := vmapFind m ⟨s + 1, w, .chinePort⟩
  chineBottomLeftPort := vmapFind m ⟨s, w + 1, .port⟩
  chineBottomRightPort := vmapFind m ⟨s + 1, w + 1, .port⟩

/-- `areVerticesValid` (validators.ts): all supplied indices defined. -/
def areVerticesValid (l : List (Option ℕ)) : Bool :=
  l.all (·.isSome)

/-- `areAllPanelVerticesValid` (validators.ts). -/
def areAllPanelVerticesValid (v : PanelVertices) : Bool :=
  areVerticesValid [v.topLeft, v.topRight, v.bottomRight, v.bottomLeft,
    v.topLeftPort, v.topRightPort, v.bottomRightPort, v.bottomLeftPort]

/-- `areChineVerticesValid` (validators.ts). -/
def areChineVerticesValid (c : ChineVertices) : Bool :=
  areVerticesValid [c.chineTopLeft, c.chineTopRight, c.chineBottomLeft,
    c.chineBottomRight, c.chineTopLeftPort, c.chineTopRightPort,
    c.chineBottomLeftPort, c.chineBottomRightPort]

/-- Reads an index validated by the caller (the JS code indexes the
untyped record directly after the validity check). -/
def videx (o : Option ℕ) : ℕ := o.getD 0

/-- `generateStandardPanel` (faces.ts): two triangles per side. -/
def generateStandardPanel (indices : List ℕ) (v : PanelVertices) : List ℕ :=
  indices ++
    [videx v.topLeft, videx v.topRight, videx v.bottomRight,
     videx v.topLeft, videx v.bottomRight, videx v.bottomLeft,
     videx v.topLeftPort, videx v.bottomLeftPort, videx v.bottomRightPort,
     videx v.topLeftPort, videx v.bottomRightPort, videx v.topRightPort]

/-- `generateChinePanel` (generators/chine.ts): eight triangles forming
the inset transition. -/
def generateChinePanel (indices : List ℕ) (m : VMap) (s w : ℕ) : List ℕ :=
  let vertices := getPanelVertices m s w
  let c := getChineVertices m s w
  if !areChineVerticesValid c then indices
  else
    indices ++
      [videx vertices.topLeft, videx vertices.topRight, videx c.chineTopRight,
       videx vertices.topLeft, videx c.chineTopRight, videx c.chineTopLeft,
       videx c.chineTopLeft, videx c.chineTopRight, videx c.chineBottomRight,
       videx c.chineTopLeft, videx c.chineBottomRight, videx c.chineBottomLeft,
       videx vertices.topLeftPort, videx c.chineTopLeftPort, videx c.chineTopRightPort,
       videx vertices.topLeftPort, videx c.chineTopRightPort, videx vertices.topRightPort,
       videx c.chineTopLeftPort, videx c.chineBottomLeftPort, videx c.chineBottomRightPort,
       videx c.chineTopLeftPort, videx c.chineBottomRightPort, videx c.chineTopRightPort]

/-- `generateKeelConnection` (generators/keel.ts): four triangles joining
the hull bottom of a panel to the two adjacent keel vertices. -/
def generateKeelConnection (indices : List ℕ) (m : VMap) (keelVertices : List ℕ)
    (s w : ℕ) : List ℕ :=
  let keelLeft := keelVertices.get? s
  let keelRight := keelVertices.get? (s + 1)
  let bottomCenterLeft := vmapFind m ⟨s, w, .star⟩
  let bottomCenterRight := vmapFind m ⟨s + 1, w, .star⟩
  let bottomCenterLeftPort := vmapFind m ⟨s, w, .port⟩
  let bottomCenterRightPort := vmapFind m ⟨s + 1, w, .port⟩
  if !areVerticesValid [keelLeft, keelRight, bottomCenterLeft,
      bottomCenterRight, bottomCenterLeftPort, bottomCenterRightPort] then
    indices
  else
    indices ++
      [videx bottomCenterLeft, videx bottomCenterRight, videx keelRight,
       videx bottomCenterLeft, videx keelRight, videx keelLeft,
       videx bottomCenterLeftPort, videx keelLeft, videx keelRight,
       videx bottomCenterLeftPort, videx keelRight, videx bottomCenterRightPort]

/-- `generatePanelFaces` (faces.ts). -/
def generatePanelFaces (indices : List ℕ) (m : VMap) (keelVertices : List ℕ)
    (s w : ℕ) (hasKeel hasChine : Bool) : List ℕ :=
  let vertices := getPanelVertices m s w
  if !areAllPanelVerticesValid vertices then indices
  else
    let indices :=
      if hasChine && w == 0 then generateChinePanel indices m s w
      else generateStandardPanel indices vertices
    if hasKeel && w == 0 then generateKeelConnection indices m keelVertices s w
    else indices

/-- `generateFaces` (faces.ts): iterates every adjacent station/waterline
panel of the table. -/
def generateFaces (t : QuoteTable) (m : VMap) (keelVertices : List ℕ) : List ℕ :=
  let stationCount := (getSortedStations t).length
  let waterlineCount := (getSortedWaterlines t).length
  let hasKeel := t.metadata.hasKeel.getD false
  let hasChine := t.metadata.hasChine.getD false
  (List.range (stationCount - 1)).foldl (fun indices s =>
    (List.range (waterlineCount - 1)).foldl (fun indices w =>
      generatePanelFaces indices m keelVertices s w hasKeel hasChine)
      indices) []

/-! ### Interpolation (helpers.ts, `interpolateHullGrid`) -/

/-- `Math.round` for the nonnegative arguments used by the interpolator
(JS rounds half away from zero upward; for `q ≥ 0` this is `⌊q + 1/2⌋`). -/
def jsRound (q : ℚ) : ℤ := ⌊q + 1 / 2⌋

/-- Strict first-minimum scan used by the `nearest` fallbacks:
`forEach` with `dist < minDist`, seeded with the first element. -/
def nearestBy {α : Type} (l : List α) (seed : α) (d : α → ℚ) : α :=
  l.foldl (fun best x => if d x < d best then x else best) seed

/-- The bracketing-station search of `interpolateHullGrid`: the first `i`
with `sorted[i].position ≤ p ≤ sorted[i+1].position`. -/
def bracketStations (sorted : List Station) (p : ℚ) :
    Option (Station × Station) :=
  match (List.range (sorted.length - 1)).find? (fun i =>
    match sorted.get? i, sorted.get? (i + 1) with
    | some a, some b => decide (a.position ≤ p ∧ p ≤ b.position)
    | _, _ => false) with
  | none => none
  | some i =>
    match sorted.get? i, sorted.get? (i + 1) with
    | some a, some b => some (a, b)
    | _, _ => none

/-- The bounding-waterline search of the bilinear fallback; returns
`(lowerWl, upperWl, waterlineRatio)`, all initialised to 0 when no
bracketing pair exists. -/
def findWlBracket (ws : List ℚ) (h : ℚ) : ℚ × ℚ × ℚ :=
  match (List.range (ws.length - 1)).find? (fun i =>
    match ws.get? i, ws.get? (i + 1) with
    | some a, some b => decide (a ≤ h ∧ h ≤ b)
    | _, _ => false) with
  | some i =>
    match ws.get? i, ws.get? (i + 1) with
    | some a, some b => (a, b, (h - a) / (b - a))
    | _, _ => (0, 0, 0)
  | none => (0, 0, 0)

/-- Waterline-height match with the interpolator's tolerance
(`Math.abs(wl.height - h) < 0.001`). -/
def wlNear (st : Station) (h : ℚ) : Option WaterlineData :=
  st.waterlines.find? (fun wl => |wl.height - h| < 1 / 1000)

/-- Body of the inner `denseWaterlines.forEach` of `interpolateHullGrid`:
produces the interpolated sample for height `h` between the bracketing
stations. -/
def interpolateWaterlineAt (t : QuoteTable) (lowerStation upperStation : Station)
    (stationRatio : ℚ) (h : ℚ) : WaterlineData :=
  match wlNear lowerStation h, wlNear upperStation h with
  | some lo, some up =>
    { height := h
      halfBreadthPort := lo.halfBreadthPort +
        (up.halfBreadthPort - lo.halfBreadthPort) * stationRatio
      halfBreadthStarboard :=
        match lo.halfBreadthStarboard, up.halfBreadthStarboard with
        | some a, some b => some (a + (b - a) * stationRatio)
        | _, _ => none }
  | some lo, none =>
    { height := h
      halfBreadthPort := lo.halfBreadthPort
      halfBreadthStarboard := lo.halfBreadthStarboard }
  | none, some up =>
    { height := h
      halfBreadthPort := up.halfBreadthPort
      halfBreadthStarboard := up.halfBreadthStarboard }
  | none, none =>
    let lowerWaterlines := getSortedWaterlines t
    let br := findWlBracket lowerWaterlines h
    let lowerStationLowerWl := wlNear lowerStation br.1
    let lowerStationUpperWl := wlNear lowerStation br.2.1
    let upperStationLowerWl := wlNear upperStation br.1
    let upperStationUpperWl := wlNear upperStation br.2.1
    let port :=
      match lowerStationLowerWl, lowerStationUpperWl,
            upperStationLowerWl, upperStationUpperWl with
      | some a, some b, some c, some d =>
        let lowerStationValue := a.halfBreadthPort +
          (b.halfBreadthPort - a.halfBreadthPort) * br.2.2
        let upperStationValue := c.halfBreadthPort +
          (d.halfBreadthPort - c.halfBreadthPort) * br.2.2
        lowerStationValue + (upperStationValue - lowerStationValue) * stationRatio
      | _, _, _, _ => 0
    { height := h, halfBreadthPort := port, halfBreadthStarboard := none }

/-- The bracket/clamp resolution of one dense station of
`interpolateHullGrid`: bracket (or clamp to the nearest original
station, ratio 0). A division by zero (bracketing stations at equal
positions) yields 0 in `ℚ`; the claims below only concern tables with
distinct positions. -/
def resolveBracket (sorted : List Station) (p : ℚ) : Station × Station × ℚ :=
  match bracketStations sorted p with
  | some (a, b) => (a, b, (p - a.position) / (b.position - a.position))
  | none =>
    match sorted with
    | [] => (⟨0, []⟩, ⟨0, []⟩, 0)
    | s0 :: rest =>
      let n := nearestBy (s0 :: rest) s0 (fun st => |p - st.position|)
      (n, n, 0)

/-- One dense station continued: interpolate every dense height between
the resolved bracketing stations. -/
def interpolateStationAt (t : QuoteTable) (sorted : List Station)
    (denseWaterlines : List ℚ) (p : ℚ) : Station :=
  let lu := resolveBracket sorted p
  { position := p
    waterlines := denseWaterlines.map
      (fun h => interpolateWaterlineAt t lu.1 lu.2.1 lu.2.2 h) }

/-- The dense sample count `max(2, Math.round((len − 1) × mult) + 1)`. -/
def denseCount (len : ℕ) (mult : ℚ) : ℕ :=
  max 2 ((jsRound (((len : ℚ) - 1) * mult)).toNat + 1)

/-- The linear resampling `t · (last − first) + first`, `t = i/(n−1)`,
for `i = 0 .. n−1`. -/
def densePositions (first last : ℚ) (n : ℕ) : List ℚ :=
  (List.range n).map (fun (i : ℕ) =>
    ((i : ℚ) / ((n : ℚ) - 1)) * (last - first) + first)

/-- `interpolateHullGrid` (helpers.ts). -/
def interpolateHullGrid (t : QuoteTable) (config : LODConfig) : QuoteTable :=
  if config.stationMultiplier ≤ 1 ∧ config.waterlineMultiplier ≤ 1 then t
  else
    let sortedStations := getSortedStations t
    let sortedWaterlines := getSortedWaterlines t
    if sortedStations.length = 0 ∨ sortedWaterlines.length = 0 then t
    else
      let firstPos := (sortedStations.head?.map (·.position)).getD 0
      let lastPos := (sortedStations.getLast?.map (·.position)).getD 0
      let denseStations := densePositions firstPos lastPos
        (denseCount sortedStations.length config.stationMultiplier)
      let firstWl := sortedWaterlines.head?.getD 0
      let lastWl := sortedWaterlines.getLast?.getD 0
      let denseWaterlines := densePositions firstWl lastWl
        (denseCount sortedWaterlines.length config.waterlineMultiplier)
      { metadata := t.metadata
        stations := denseStations.map
          (fun p => interpolateStationAt t sortedStations denseWaterlines p) }

/-! ### Station curves (generators/stations.ts) -/

/-- Body of the inner `sortedWaterlines.forEach` of
`generateStationCurves`: a found sample contributes its port point then
its (fallback-mirrored) starboard point. -/
def stationCurveStep (scale : ℚ) (station : Station) (points : List Vec3)
    (wH : ℚ) : List Vec3 :=
  match station.waterlines.find? (fun wl => wl.height = wH) with
  | none => points
  | some wlData =>
    let zPos := station.position * scale
    let yPos := wH * scale
    let xPort := wlData.halfBreadthPort * scale
    let xStarboard :=
      (wlData.halfBreadthStarboard.getD wlData.halfBreadthPort) * scale
    points ++ [Vec3.mk (-xPort) yPos zPos, Vec3.mk xStarboard yPos zPos]

/-- `generateStationCurves` (stations.ts): one list of cross-section
points per station, keyed by the station position. -/
def generateStationCurves (scale : ℚ) (t : QuoteTable) : List (ℚ × List Vec3) :=
  (getSortedStations t).map (fun station =>
    (station.position,
      (getSortedWaterlines t).foldl (stationCurveStep scale station) []))

/-! ### Group organizer (group_organizer.ts) -/

/-- The face groups: station and waterline groups are keyed by the raw
position/height (the JS code uses its string form as object key). -/
structure GeometryGroups where
  stations : List (ℚ × List ℕ)
  waterlines : List (ℚ × List ℕ)
  deck : List ℕ
deriving DecidableEq, Repr

/-- Push indices into the entry of an initialised group key (a missing
key is left untouched, as in `if (groups.stations[key])`). -/
def assocPush (l : List (ℚ × List ℕ)) (k : ℚ) (v : List ℕ) :
    List (ℚ × List ℕ) :=
  match l with
  | [] => []
  | (k0, xs) :: rest =>
    if k0 = k then (k0, xs ++ v) :: rest else (k0, xs) :: assocPush rest k v

/-- The centroid of a face given the three vertex indices
(`centroid.add(...).divideScalar(3)`). -/
def faceCentroid (vertices : List Vec3) (a b c : ℕ) : Vec3 :=
  let va := (vertices.get? a).getD ⟨0, 0, 0⟩
  let vb := (vertices.get? b).getD ⟨0, 0, 0⟩
  let vc := (vertices.get? c).getD ⟨0, 0, 0⟩
  ⟨(va.x + vb.x + vc.x) / 3, (va.y + vb.y + vc.y) / 3,
   (va.z + vb.z + vc.z) / 3⟩

/-- One face of the grouping loop of `organizeGeometryGroups`
(`i` is the position of the face's first index in the index list). -/
def organizeFaceStep (vertices : List Vec3) (indices : List ℕ)
    (stations : List Station) (waterlines : List ℚ)
    (g : GeometryGroups) (i : ℕ) : GeometryGroups :=
  match indices.get? i, indices.get? (i + 1), indices.get? (i + 2) with
  | some a, some b, some c =>
    if a ≥ vertices.length ∨ b ≥ vertices.length ∨ c ≥ vertices.length then g
    else
      let centroid : Vec3 := faceCentroid vertices a b c
      match stations, waterlines with
      | st0 :: strest, wl0 :: wlrest =>
        let closestStation := nearestBy (st0 :: strest) st0
          (fun st => |centroid.z - st.position|)
        let closestWaterline := nearestBy (wl0 :: wlrest) wl0
          (fun wl => |centroid.y - wl|)
        let g := { g with
          stations := assocPush g.stations closestStation.position [i, i + 1, i + 2]
          waterlines := assocPush g.waterlines closestWaterline [i, i + 1, i + 2] }
        let topWaterline := (wl0 :: wlrest).getLast (by simp)
        if |centroid.y - topWaterline| < 1 / 100 then
          { g with deck := g.deck ++ [i, i + 1, i + 2] }
        else g
      | _, _ => g
  | _, _, _ => g

/-- `organizeGeometryGroups` (group_organizer.ts). The face loop is
modelled for index lists of complete triples, the only shape produced by
`generateFaces`. -/
def organizeGeometryGroups (vertices : List Vec3) (indices : List ℕ)
    (stations : List Station) (waterlines : List ℚ) : GeometryGroups :=
  if vertices.length = 0 ∨ indices.length = 0 then ⟨[], [], []⟩
  else if stations.length = 0 ∨ waterlines.length = 0 then ⟨[], [], []⟩
  else
    let g0 : GeometryGroups :=
      { stations := (dedupFirst (stations.map (·.position))).map (fun k => (k, []))
        waterlines := (dedupFirst waterlines).map (fun k => (k, []))
        deck := [] }
    ((List.range (indices.length / 3)).map (3 * ·)).foldl
      (organizeFaceStep vertices indices stations waterlines) g0

/-- The group-organizing stage of `generateStructuredHullGeometry`
(hull.ts lines 33–71): LOD refinement, vertex and face generation, then
`organizeGeometryGroups(vertices, indices, refinedStations,
refinedWaterlines)` — scaled vertices against raw station positions and
waterline heights. -/
def hullGroups (t : QuoteTable) (lodConfig : LODConfig) : GeometryGroups :=
  let refinedData :=
    if 1 < lodConfig.stationMultiplier ∨ 1 < lodConfig.waterlineMultiplier then
      interpolateHullGrid t lodConfig
    else t
  let acc := generateVertices (getUnitScale t.metadata.units) refinedData
  let indices := generateFaces refinedData acc.vmap acc.keel
  organizeGeometryGroups acc.vertices indices
    (getSortedStations refinedData) (getSortedWaterlines refinedData)

/-! ### IEEE-style scalar for the NaN/Infinity abort logic (hull.ts)

`F` refines the JS double by a rational plus the special values NaN and
±Infinity, with IEEE propagation for the operations the vertex pipeline
performs (multiplication, addition, subtraction, negation). Rounding and
finite overflow are not modelled; the operations used here cannot create
a special value from finite operands. -/

inductive F where
  | fin (q : ℚ)
  | inf (neg : Bool)
  | nan
deriving DecidableEq, Repr

/-- `isNaN`. -/
def F.isNaNb : F → Bool
  | .nan => true
  | _ => false

/-- IEEE negation. -/
def F.neg : F → F
  | .fin q => .fin (-q)
  | .inf b => .inf (!b)
  | .nan => .nan

/-- IEEE multiplication: NaN propagates; `±∞ · 0 = NaN`; signs combine. -/
def F.mul : F → F → F
  | .nan, _ => .nan
  | _, .nan => .nan
  | .fin a, .fin b => .fin (a * b)
  | .fin a, .inf s => if a = 0 then .nan else .inf (xor (decide (a < 0)) s)
  | .inf s, .fin a => if a = 0 then .nan else .inf (xor s (decide (a < 0)))
  | .inf s, .inf t => .inf (xor s t)

/-- IEEE addition: NaN propagates; `∞ + (−∞) = NaN`. -/
def F.add : F → F → F
  | .nan, _ => .nan
  | _, .nan => .nan
  | .fin a, .fin b => .fin (a + b)
  | .fin _, .inf s => .inf s
  | .inf s, .fin _ => .inf s
  | .inf s, .inf t => if s = t then .inf s else .nan

/-- IEEE subtraction. -/
def F.sub (a b : F) : F := a.add b.neg

/-- 3D point over `F`. -/
structure FVec3 where
  x : F
  y : F
  z : F
deriving DecidableEq, Repr

/-- `WaterlineData` whose breadths may carry IEEE special values
(heights and station positions stay rational so that the sorted grids
coincide with the `ℚ` embedding). -/
structure WaterlineDataF where
  height : ℚ
  halfBreadthPort : F
  halfBreadthStarboard : Option F
deriving DecidableEq, Repr

/-- `Station` over `F` breadths. -/
structure StationF where
  position : ℚ
  waterlines : List WaterlineDataF
deriving DecidableEq, Repr

/-- `QuoteTable` over `F` breadths. -/
structure QuoteTableF where
  stations : List StationF
  metadata : QuoteTableMetadata
deriving DecidableEq, Repr

/-- Ordering for the station sort of the `F` table. -/
def stationLEF (a b : StationF) : Prop := a.position ≤ b.position

instance : DecidableRel stationLEF := fun a b => by
  unfold stationLEF; infer_instance

/-- `getSortedStations` over the `F` table. -/
def getSortedStationsF (t : QuoteTableF) : List StationF :=
  t.stations.insertionSort stationLEF

/-- `getSortedWaterlines` over the `F` table. -/
def getSortedWaterlinesF (t : QuoteTableF) : List ℚ :=
  (dedupFirst (t.stations.foldl (fun acc st =>
    acc ++ st.waterlines.map (·.height)) [])).insertionSort (· ≤ ·)

/-- Accumulator of the `F` vertex generation. -/
structure GenAccF where
  vertices : List FVec3
  vmap : VMap
  keel : List ℕ
deriving Repr

/-- Body of the inner loop of `generateVertices` over `F`, including the
source's `isNaN` guard (`[xPort, xStarboard, yPos, zPos].some(isNaN)`),
which skips the vertex pair without aborting. -/
def genWaterlineStepF (scale : ℚ) (hasKeel hasChine : Bool) (sIdx : ℕ)
    (station : StationF) (wIdx : ℕ) (wH : ℚ) (acc : GenAccF) : GenAccF :=
  match station.waterlines.find? (fun wl => wl.height = wH) with
  | none => acc
  | some wlData =>
    let zPos := F.fin (station.position * scale)
    let yPos := F.fin (wH * scale)
    let halfBreadthPort := wlData.halfBreadthPort
    let halfBreadthStarboard :=
      wlData.halfBreadthStarboard.getD halfBreadthPort
    let xPort := halfBreadthPort.mul (F.fin scale)
    let xStarboard := halfBreadthStarboard.mul (F.fin scale)
    if [xPort, xStarboard, yPos, zPos].any F.isNaNb then acc
    else
      let acc :=
        if hasKeel && wIdx == 0 then
          let keelVertex : FVec3 :=
            ⟨F.fin 0, yPos.sub (F.fin ((5 / 100) * scale)), zPos⟩
          { acc with
            vertices := acc.vertices ++ [keelVertex]
            keel := acc.keel ++ [acc.vertices.length] }
        else acc
      let starboardIndex := acc.vertices.length
      let acc := { acc with
        vertices := acc.vertices ++ [FVec3.mk xStarboard yPos zPos] }
      let portIndex := acc.vertices.length
      let acc := { acc with
        vertices := acc.vertices ++ [FVec3.mk xPort.neg yPos zPos]
        vmap := acc.vmap ++
          [(VKey.mk sIdx wIdx .star, starboardIndex),
           (VKey.mk sIdx wIdx .port, portIndex)] }
      if hasChine && wIdx == 0 then
        let chineStarboardIndex := acc.vertices.length
        let acc := { acc with
          vertices := acc.vertices ++
            [FVec3.mk (xStarboard.mul (F.fin (8 / 10))) yPos zPos] }
        let chinePortIndex := acc.vertices.length
        { acc with
          vertices := acc.vertices ++
            [FVec3.mk (xPort.mul (F.fin (8 / 10))).neg yPos zPos]
          vmap := acc.vmap ++
            [(VKey.mk sIdx wIdx .chineStar, chineStarboardIndex),
             (VKey.mk sIdx wIdx .chinePort, chinePortIndex)] }
      else acc

/-- `generateVertices` over `F`. -/
def generateVerticesF (scale : ℚ) (t : QuoteTableF) : GenAccF :=
  let hasKeel := t.metadata.hasKeel.getD false
  let hasChine := t.metadata.hasChine.getD false
  let sortedStations := getSortedStationsF t
  let sortedWaterlines := getSortedWaterlinesF t
  sortedStations.enum.foldl (fun acc (sp : ℕ × StationF) =>
    sortedWaterlines.enum.foldl (fun acc (wp : ℕ × ℚ) =>
      genWaterlineStepF scale hasKeel hasChine sp.1 sp.2 wp.1 wp.2 acc)
      acc) ⟨[], [], []⟩

/-- `generateFaces` over the `F` table (faces depend only on the vertex
lookup and the grid sizes). -/
def generateFacesF (t : QuoteTableF) (m : VMap) (keelVertices : List ℕ) : List ℕ :=
  let stationCount := (getSortedStationsF t).length
  let waterlineCount := (getSortedWaterlinesF t).length
  let hasKeel := t.metadata.hasKeel.getD false
  let hasChine := t.metadata.hasChine.getD false
  (List.range (stationCount - 1)).foldl (fun indices s =>
    (List.range (waterlineCount - 1)).foldl (fun indices w =>
      generatePanelFaces indices m keelVertices s w hasKeel hasChine)
      indices) []

/-- The core buffers of `HullGeometry` (the overlay/cap/color fields do
not participate in the abort decision and are not modelled here). -/
structure HullGeometryF where
  vertices : List FVec3
  indices : List ℕ
deriving DecidableEq, Repr

/-- `createEmptyHullGeometry` (hull.ts): the explicit placeholder. -/
def createEmptyHullGeometryF : HullGeometryF := ⟨[], []⟩

/-- The flattened `Float32Array` vertex buffer. -/
def flatCoords (vs : List FVec3) : List F :=
  vs.foldr (fun v acc => v.x :: v.y :: v.z :: acc) []

/-- `generateStructuredHullGeometry` (hull.ts), restricted to its core
buffers, at an LOD with both multipliers ≤ 1 (no densification): vertex
and face generation, the empty-geometry early return, and the NaN scan
over the final vertex array. After the scan the source only organizes
groups/colors/caps, none of which can alter the buffers or return the
placeholder. -/
def generateStructuredHullGeometryF (t : QuoteTableF) : HullGeometryF :=
  let acc := generateVerticesF (getUnitScale t.metadata.units) t
  let indices := generateFacesF t acc.vmap acc.keel
  if acc.vertices.length = 0 ∨ indices.length = 0 then createEmptyHullGeometryF
  else if (flatCoords acc.vertices).any F.isNaNb then createEmptyHullGeometryF
  else ⟨acc.vertices, indices⟩

/-! ### Weight ledger (physics/physics.ts) -/

/-- `Weight`: a point load. -/
structure Weight where
  position : Vec3
  magnitude : ℚ
deriving DecidableEq, Repr

/-- The `Physics` state (hull.ts's `Hull` extends it). -/
structure PhysicsState where
  thickness : ℚ
  weight : ℚ
  customWeights : List Weight
  paintedWeights : List Weight
deriving DecidableEq, Repr

/-- `setPaintedWeights`: replaces the painted set (the source copies the
array in and out; list values are immutable here, so plain replacement
is the same contract). -/
def setPaintedWeights (p : PhysicsState) (weights : List Weight) : PhysicsState :=
  { p with paintedWeights := weights }

/-- `getPaintedWeights` (returns a copy; value semantics). -/
def getPaintedWeights (p : PhysicsState) : List Weight :=
  p.paintedWeights

/-- `clearPaintedWeights`. -/
def clearPaintedWeights (p : PhysicsState) : PhysicsState :=
  { p with paintedWeights := [] }

/-- `getTotalWeight` (physics.ts): base + custom + painted. -/
def getTotalWeight (p : PhysicsState) : ℚ :=
  let baseWeight := p.weight
  let customWeight := (p.customWeights.map (·.magnitude)).sum
  let paintedWeight := (p.paintedWeights.map (·.magnitude)).sum
  baseWeight + customWeight + paintedWeight

/-! ### Paint selection tool (paint_selection_tool.ts) -/

/-- Mesh classification of `getMeshType`. -/
inductive MeshType where
  | hull
  | deck
  | station
  | transom
  | bow
  | unknown
deriving DecidableEq, Repr

/-- Affine transform (the top three rows of a THREE `Matrix4`; the hull
surfaces only ever receive affine world transforms). -/
structure Mat4 where
  m11 : ℚ
  m12 : ℚ
  m13 : ℚ
  m14 : ℚ
  m21 : ℚ
  m22 : ℚ
  m23 : ℚ
  m24 : ℚ
  m31 : ℚ
  m32 : ℚ
  m33 : ℚ
  m34 : ℚ
deriving DecidableEq, Repr

/-- Application of a `Matrix4` to a point. -/
def applyMat (m : Mat4) (v : Vec3) : Vec3 :=
  ⟨m.m11 * v.x + m.m12 * v.y + m.m13 * v.z + m.m14,
   m.m21 * v.x + m.m22 * v.y + m.m23 * v.z + m.m24,
   m.m31 * v.x + m.m32 * v.y + m.m33 * v.z + m.m34⟩

/-- The identity transform. -/
def idMat : Mat4 := ⟨1, 0, 0, 0, 0, 1, 0, 0, 0, 0, 1, 0⟩

/-- A candidate surface as the selection tool sees it: indexed geometry,
world matrix (THREE's `worldToLocal` applies its inverse, stored here as
a field) and the classification `getMeshType` would return. -/
structure SelMesh where
  id : ℕ
  positions : List ℚ
  index : Option (List ℕ)
  matrixWorld : Mat4
  matrixWorldInv : Mat4
  meshType : MeshType
deriving DecidableEq, Repr

/-- Cached data of a selected face (`FaceData`). -/
structure FaceData where
  worldCenter : Vec3
  meshId : ℕ
  faceIndex : ℕ
  meshType : MeshType
  localCenter : Vec3
deriving DecidableEq, Repr

/-- Selection-relevant state of `PaintSelectionTool`. -/
structure ToolState where
  selectedFaces : List ℕ
  faceData : List (ℕ × FaceData)
deriving DecidableEq, Repr

/-- `Set.add`: append if absent. -/
def setAdd (l : List ℕ) (x : ℕ) : List ℕ :=
  if x ∈ l then l else l ++ [x]

/-- `Map.has`. -/
def mapHas (fd : List (ℕ × FaceData)) (k : ℕ) : Bool :=
  fd.any (·.1 = k)

/-- `Map.set`: replace in place or append. -/
def mapSet (fd : List (ℕ × FaceData)) (k : ℕ) (v : FaceData) :
    List (ℕ × FaceData) :=
  if mapHas fd k then fd.map (fun e => if e.1 = k then (k, v) else e)
  else fd ++ [(k, v)]

/-- `Map.delete`. -/
def mapDelete (fd : List (ℕ × FaceData)) (k : ℕ) : List (ℕ × FaceData) :=
  fd.filter (fun e => e.1 ≠ k)

/-- Read of the flat position attribute (`positions[j]`). -/
def getFlat (l : List ℚ) (j : ℕ) : ℚ := (l.get? j).getD 0

/-- The three local-space corners and centroid of face `faceIndex`
(`i = 3 * faceIndex` in the source loop). -/
def faceCenterAt (positions : List ℚ) (index : List ℕ) (faceIndex : ℕ) : Vec3 :=
  let read := fun (k : ℕ) =>
    let vi := (index.get? (3 * faceIndex + k)).getD 0
    Vec3.mk (getFlat positions (vi * 3)) (getFlat positions (vi * 3 + 1))
      (getFlat positions (vi * 3 + 2))
  let v1 := read 0
  let v2 := read 1
  let v3 := read 2
  ⟨(v1.x + v2.x + v3.x) * (1 / 3), (v1.y + v2.y + v3.y) * (1 / 3),
   (v1.z + v2.z + v3.z) * (1 / 3)⟩

/-- Squared Euclidean distance. -/
def dist2 (a b : Vec3) : ℚ :=
  (a.x - b.x) * (a.x - b.x) + (a.y - b.y) * (a.y - b.y) +
    (a.z - b.z) * (a.z - b.z)

/-- `faceCenter.distanceTo(localPoint) <= brushSize`, rendered exactly
over ℚ: a nonnegative square root is `≤ r` iff `r ≥ 0` and the squares
compare. -/
def inBrush (center localPoint : Vec3) (brushSize : ℚ) : Bool :=
  decide (0 ≤ brushSize ∧ dist2 center localPoint ≤ brushSize * brushSize)

/-- One paint invocation: the struck world point and surface. -/
structure PaintOp where
  worldPoint : Vec3
  mesh : SelMesh
deriving DecidableEq, Repr

/-- The face indices of `op.mesh` whose local centroid lies within the
brush around the hit point — the faces the selection loop touches. -/
def faceIdsWithinBrush (brushSize : ℚ) (op : PaintOp) : List ℕ :=
  match op.mesh.index with
  | none => []
  | some index =>
    let localPoint := applyMat op.mesh.matrixWorldInv op.worldPoint
    (List.range (index.length / 3)).filter (fun faceIndex =>
      inBrush (faceCenterAt op.mesh.positions index faceIndex) localPoint brushSize)

/-- Per-face body of `selectFacesAroundPoint` in add mode. -/
def addFaceStep (mesh : SelMesh) (index : List ℕ) (st : ToolState)
    (faceIndex : ℕ) : ToolState :=
  let uniqueFaceId := mesh.id * 1000000 + faceIndex
  let faceCenter := faceCenterAt mesh.positions index faceIndex
  let worldCenter := applyMat mesh.matrixWorld faceCenter
  { selectedFaces := setAdd st.selectedFaces uniqueFaceId
    faceData :=
      if !mapHas st.faceData uniqueFaceId then
        mapSet st.faceData uniqueFaceId
          ⟨worldCenter, mesh.id, faceIndex, mesh.meshType, faceCenter⟩
      else st.faceData }

/-- Per-face body of `selectFacesAroundPoint` in remove mode
(`faceData.delete` only when `selectedFaces.delete` succeeded). -/
def removeFaceStep (mesh : SelMesh) (st : ToolState) (faceIndex : ℕ) : ToolState :=
  let uniqueFaceId := mesh.id * 1000000 + faceIndex
  if uniqueFaceId ∈ st.selectedFaces then
    { selectedFaces := st.selectedFaces.erase uniqueFaceId
      faceData := mapDelete st.faceData uniqueFaceId }
  else st

/-- `selectFacesAroundPoint` (paint_selection_tool.ts): iterates every
face of the struck surface and adds/removes those within the brush. -/
def selectFacesAroundPoint (brushSize : ℚ) (removing : Bool) (st : ToolState)
    (op : PaintOp) : ToolState :=
  match op.mesh.index with
  | none => st
  | some index =>
    if removing then
      (faceIdsWithinBrush brushSize op).foldl (removeFaceStep op.mesh) st
    else
      (faceIdsWithinBrush brushSize op).foldl (addFaceStep op.mesh index) st

/-- `clearSelection`: both containers are emptied. -/
def clearSelection (_ : ToolState) : ToolState := ⟨[], []⟩

/-- An externally triggered selection-engine operation. -/
inductive ToolEvent where
  | paint (removing : Bool) (op : PaintOp)
  | clear
deriving DecidableEq, Repr

/-- Dispatch of one event. -/
def toolStep (brushSize : ℚ) (st : ToolState) (e : ToolEvent) : ToolState :=
  match e with
  | .paint removing op => selectFacesAroundPoint brushSize removing st op
  | .clear => clearSelection st

/-- Run a sequence of events from the initial (empty) tool state. -/
def runTool (brushSize : ℚ) (events : List ToolEvent) : ToolState :=
  events.foldl (toolStep brushSize) ⟨[], []⟩

/-! ### Weight manager (weight_manager.ts) -/

/-- Commit-relevant state of `WeightManager`: the configured
weight-per-face, the children of the weight-marker group, and the
selection tool it drives. -/
structure WeightManagerState where
  weightPerFace : ℚ
  weightMarkers : List Weight
  tool : ToolState
deriving DecidableEq, Repr

/-- `applyWeightToSelection` (weight_manager.ts): no-op returning false
on an empty selection; otherwise converts each selected cached face to a
point load of magnitude `weightPerFace`, *sets* them as the hull's
painted weights, replaces the marker group contents, clears the
selection and returns true. -/
def applyWeightToSelection (wm : WeightManagerState) (hull : PhysicsState) :
    Bool × WeightManagerState × PhysicsState :=
  if wm.tool.faceData.length = 0 then (false, wm, hull)
  else
    let weights : List Weight := wm.tool.faceData.filterMap (fun e =>
      if e.1 ∈ wm.tool.selectedFaces then
        some ⟨e.2.worldCenter, wm.weightPerFace⟩
      else none)
    let hull := setPaintedWeights hull weights
    let wm := { wm with
      weightMarkers := weights
      tool := clearSelection wm.tool }
    (true, wm, hull)

/-- `getAppliedWeight` (weight_manager.ts): sum of the hull's painted
weight magnitudes. -/
def getAppliedWeight (hull : PhysicsState) : ℚ :=
  ((getPaintedWeights hull).map (·.magnitude)).sum

/-- `getAppliedWeightCount` (weight_manager.ts): number of marker
children. -/
def getAppliedWeightCount (wm : WeightManagerState) : ℕ :=
  wm.weightMarkers.length

/-! ### Auxiliary definitions used by the theorems -/

/-- The triangle list encoded by a flat index list. -/
def triangles (indices : List ℕ) : List (ℕ × ℕ × ℕ) :=
  (List.range (indices.length / 3)).map (fun i =>
    ((indices.get? (3 * i)).getD 0, (indices.get? (3 * i + 1)).getD 0,
     (indices.get? (3 * i + 2)).getD 0))

/-- Whether a triangle references one of the keel vertices. -/
def usesKeelVertex (keelVertices : List ℕ) (tr : ℕ × ℕ × ℕ) : Bool :=
  decide (tr.1 ∈ keelVertices ∨ tr.2.1 ∈ keelVertices ∨ tr.2.2 ∈ keelVertices)

/-- A representative 3-station, 3-waterline symmetric meter-scale table
with a keel and no chine, every station carrying samples at all three
waterline heights. -/
def T3 : QuoteTable :=
  { stations := [
      ⟨0, [⟨0, 2, none⟩, ⟨1, 3, none⟩, ⟨2, 4, none⟩]⟩,
      ⟨1, [⟨0, 5/2, none⟩, ⟨1, 7/2, none⟩, ⟨2, 9/2, none⟩]⟩,
      ⟨2, [⟨0, 2, none⟩, ⟨1, 3, none⟩, ⟨2, 4, none⟩]⟩],
    metadata := ⟨100, some true, some false, 1, .m, some .symmetric⟩ }

/-- Vertex-generation result for `T3`. -/
def accT3 : GenAcc := generateVertices (getUnitScale T3.metadata.units) T3

/-- Face indices generated for `T3`. -/
def facesT3 : List ℕ := generateFaces T3 accT3.vmap accT3.keel

/-- The bookkeeping invariant of the selection tool: both containers are
duplicate-free and cache exactly the selected face identities. -/
def ToolInv (st : ToolState) : Prop :=
  st.selectedFaces.Nodup ∧ (st.faceData.map (·.1)).Nodup ∧
  (∀ k ∈ st.faceData.map (·.1), k ∈ st.selectedFaces) ∧
  (∀ k ∈ st.selectedFaces, k ∈ st.faceData.map (·.1))

instance (st : ToolState) : Decidable (ToolInv st) := by
  unfold ToolInv; infer_instance

/-- The face identities a paint operation touches. -/
def opIds (brushSize : ℚ) (op : PaintOp) : List ℕ :=
  (faceIdsWithinBrush brushSize op).map (fun fi => op.mesh.id * 1000000 + fi)

/-! #### Concrete scenario for the weight-application claims -/

/-- A surface holding two well-separated triangles. -/
def wMesh : SelMesh :=
  ⟨7, [0, 0, 0, 1, 0, 0, 0, 1, 0, 100, 0, 0, 101, 0, 0, 100, 1, 0],
   some [0, 1, 2, 3, 4, 5], idMat, idMat, .hull⟩

/-- A hit at the centroid of the first triangle. -/
def wOp1 : PaintOp := ⟨⟨1/3, 1/3, 0⟩, wMesh⟩

/-- A hit at the centroid of the second (disjoint) triangle. -/
def wOp2 : PaintOp := ⟨⟨301/3, 1/3, 0⟩, wMesh⟩

/-- Paint one face, commit, paint the second face, commit, with
weight-per-face 10 kg, from an empty applied-weight set. -/
def weightScenario : WeightManagerState × PhysicsState :=
  let hull0 : PhysicsState := ⟨0, 0, [], []⟩
  let wm0 : WeightManagerState := ⟨10, [], ⟨[], []⟩⟩
  let wm1 := { wm0 with
    tool := selectFacesAroundPoint (1/2) false wm0.tool wOp1 }
  let r1 := applyWeightToSelection wm1 hull0
  let wm2 := { r1.2.1 with
    tool := selectFacesAroundPoint (1/2) false r1.2.1.tool wOp2 }
  let r2 := applyWeightToSelection wm2 r1.2.2
  (r2.2.1, r2.2.2)

/-- Reflection across the centerline plane (x ↦ −x). -/
def mirrorVec (v : Vec3) : Vec3 := ⟨-v.x, v.y, v.z⟩

/-- A vertex buffer symmetric about the centerline: it contains the
mirror image of each of its points. -/
def MirrorClosed (l : List Vec3) : Prop := ∀ v ∈ l, mirrorVec v ∈ l

/-- A table in which every waterline sample omits
`halfBreadthStarboard`. -/
def allSymmetric (t : QuoteTable) : Prop :=
  ∀ st ∈ t.stations, ∀ wl ∈ st.waterlines, wl.halfBreadthStarboard = none

instance (t : QuoteTable) : Decidable (allSymmetric t) := by
  unfold allSymmetric; infer_instance

/-- Overwrite the advisory symmetry metadata flag. -/
def setSymmetry (t : QuoteTable) (o : Option Symmetry) : QuoteTable :=
  { t with metadata := { t.metadata with symmetry := o } }

/-- Point lists arranged as consecutive (port, mirrored starboard)
pairs. -/
def pairsMirrored : List Vec3 → Prop
  | [] => True
  | [_] => False
  | a :: b :: rest => b = mirrorVec a ∧ pairsMirrored rest

/-- Counterexample input for the unamended C6: two stations with no
waterline data at all. -/
def T6 : QuoteTable :=
  { stations := [⟨0, []⟩, ⟨1, []⟩], metadata := ⟨0, none, none, 0, .m, none⟩ }

/-- Station multiplier 2, waterline multiplier 1. -/
def cfg6 : LODConfig := ⟨2, 1, false⟩

/-- C8 failing input: a millimetre-unit table whose top two waterlines
(990 mm and 1000 mm) are 10 mm apart, so the top-row face centroids lie
within 0.01 *scaled* units (metres) of the scaled top waterline. -/
def tmm : QuoteTable :=
  { stations := [
      ⟨0, [⟨0, 500, none⟩, ⟨990, 500, none⟩, ⟨1000, 500, none⟩]⟩,
      ⟨1000, [⟨0, 500, none⟩, ⟨990, 500, none⟩, ⟨1000, 500, none⟩]⟩],
    metadata := ⟨0, none, none, 0, .mm, none⟩ }

/-- The same hull expressed in metres. -/
def tmeters : QuoteTable :=
  { stations := [
      ⟨0, [⟨0, 1/2, none⟩, ⟨99/100, 1/2, none⟩, ⟨1, 1/2, none⟩]⟩,
      ⟨1, [⟨0, 1/2, none⟩, ⟨99/100, 1/2, none⟩, ⟨1, 1/2, none⟩]⟩],
    metadata := ⟨0, none, none, 0, .m, none⟩ }

/-- Counterexample input for C7: a well-formed 2-station, 2-waterline
meter table whose one sample carries an infinite half-breadth. -/
def tInf : QuoteTableF :=
  { stations := [
      ⟨0, [⟨0, .fin 1, none⟩, ⟨1, .inf false, none⟩]⟩,
      ⟨1, [⟨0, .fin 1, none⟩, ⟨1, .fin 1, none⟩]⟩],
    metadata := ⟨0, none, none, 0, .m, none⟩ }

/-- The edit described by C4: delete the sample of height `h` from the
station at raw index `si`, leaving every other station untouched. -/
def removeWaterlineSample (t : QuoteTable) (si : ℕ) (h : ℚ) : QuoteTable :=
  { t with stations := t.stations.enum.map (fun p =>
      if p.1 = si then
        { p.2 with waterlines :=
            p.2.waterlines.filter (fun wl => decide (wl.height ≠ h)) }
      else p.2) }

/-- C4 base table: the two outer stations are missing the height-1
sample, so every panel of the 3-height grid lacks a corner vertex. -/
def tC4 : QuoteTable :=
  { stations := [
      ⟨0, [⟨0, 2, none⟩, ⟨2, 3, none⟩]⟩,
      ⟨1, [⟨0, 2, none⟩, ⟨1, 5/2, none⟩, ⟨2, 3, none⟩]⟩,
      ⟨2, [⟨0, 2, none⟩, ⟨2, 3, none⟩]⟩],
    metadata := ⟨100, some false, some false, 1, .m, none⟩ }

/-- `tC4` with the interior station's height-1 sample removed. -/
def tC4r : QuoteTable := removeWaterlineSample tC4 1 1

/-- Vertex-generation result for `tC4`. -/
def accC4 : GenAcc := generateVertices (getUnitScale tC4.metadata.units) tC4

/-- Face indices generated for `tC4`. -/
def facesC4 : List ℕ := generateFaces tC4 accC4.vmap accC4.keel

/-- Vertex-generation result for `tC4r`. -/
def accC4r : GenAcc := generateVertices (getUnitScale tC4r.metadata.units) tC4r

/-- Face indices generated for `tC4r`. -/
def facesC4r : List ℕ := generateFaces tC4r accC4r.vmap accC4r.keel

/-! ## Theorems -/

/-- `setAdd` membership. -/
theorem setAdd_mem (l : List ℕ) (x y : ℕ) :
    y ∈ setAdd l x ↔ y ∈ l ∨ y = x := by
  unfold setAdd
  split
  · next h => exact ⟨fun hy => Or.inl hy, fun hy => hy.elim id (fun e => e ▸ h)⟩
  · simp [List.mem_append]

/-- `setAdd` preserves freedom from duplicates. -/
theorem setAdd_nodup (l : List ℕ) (x : ℕ) (h : l.Nodup) :
    (setAdd l x).Nodup := by
  unfold setAdd
  split
  · exact h
  · next hx => simpa [List.nodup_append] using ⟨h, fun hmem => hx hmem⟩

/-- C3 — the concrete keel scenario (spec §8): a 3-station, 3-waterline
symmetric meter-scale table with `hasKeel` and without `hasChine`, all
stations sampled at all three heights, generates exactly 24 triangles:
16 body triangles and 8 keel-connection triangles (the ones referencing
a keel vertex, 4 per bottom-row panel), with no chine vertices at all. -/
theorem c3_keel_scenario_face_counts :
    (triangles facesT3).length = 24 ∧
    ((triangles facesT3).filter (usesKeelVertex accT3.keel)).length = 8 ∧
    ((triangles facesT3).filter
      (fun tr => !usesKeelVertex accT3.keel tr)).length = 16 ∧
    accT3.vmap.all (fun e => e.1.tag ≠ .chineStar ∧ e.1.tag ≠ .chinePort) := by
  decide

/-- C1 — counterexample: painting one face (weight-per-face 10 kg),
applying, painting a second disjoint face and applying again leaves
`getAppliedWeight() = 10` and `getAppliedWeightCount() = 1`, because the
second commit *replaces* the painted weights and markers; the claimed
20 kg / 2 markers is false. The first two conjuncts confirm each paint
selected exactly the intended single distinct face. -/
theorem c1_counterexample :
    (selectFacesAroundPoint (1/2) false ⟨[], []⟩ wOp1).selectedFaces = [7000000] ∧
    (selectFacesAroundPoint (1/2) false ⟨[], []⟩ wOp2).selectedFaces = [7000001] ∧
    getAppliedWeight weightScenario.2 = 10 ∧
    getAppliedWeightCount weightScenario.1 = 1 ∧
    ¬(getAppliedWeight weightScenario.2 = 20 ∧
      getAppliedWeightCount weightScenario.1 = 2) := by
  with_unfolding_all decide

/-- `mapHas` tests key membership. -/
theorem mapHas_iff (fd : List (ℕ × FaceData)) (k : ℕ) :
    mapHas fd k = true ↔ k ∈ fd.map (·.1) := by
  unfold mapHas
  simp [List.any_eq_true, List.mem_map]

/-- Keys after a fresh `Map.set`. -/
theorem mapSet_keys_of_not_has (fd : List (ℕ × FaceData)) (k : ℕ) (v : FaceData)
    (h : mapHas fd k = false) :
    (mapSet fd k v).map (·.1) = fd.map (·.1) ++ [k] := by
  unfold mapSet
  rw [h]
  simp

/-- Keys after `Map.delete`. -/
theorem mapDelete_keys (fd : List (ℕ × FaceData)) (k : ℕ) :
    (mapDelete fd k).map (·.1) = (fd.map (·.1)).filter (fun x => x ≠ k) := by
  induction fd with
  | nil => rfl
  | cons e rest ih =>
    by_cases he : e.1 = k
    · simp [mapDelete, List.filter_cons, he] at ih ⊢
      exact ih
    · simp [mapDelete, List.filter_cons, he] at ih ⊢
      exact ih

/-- The selected set after one face addition. -/
theorem addFaceStep_selected (mesh : SelMesh) (index : List ℕ) (st : ToolState)
    (fi : ℕ) :
    (addFaceStep mesh index st fi).selectedFaces =
      setAdd st.selectedFaces (mesh.id * 1000000 + fi) := rfl

/-- The cached keys after one face addition. -/
theorem addFaceStep_keys (mesh : SelMesh) (index : List ℕ) (st : ToolState)
    (fi : ℕ) :
    (addFaceStep mesh index st fi).faceData.map (·.1) =
      if mapHas st.faceData (mesh.id * 1000000 + fi) then st.faceData.map (·.1)
      else st.faceData.map (·.1) ++ [mesh.id * 1000000 + fi] := by
  by_cases h : mapHas st.faceData (mesh.id * 1000000 + fi) = true
  · simp [addFaceStep, h]
  · have h' : mapHas st.faceData (mesh.id * 1000000 + fi) = false := by simpa using h
    simp only [addFaceStep, h', Bool.not_false, if_true, if_neg h]
    exact mapSet_keys_of_not_has _ _ _ h'

/-- One face addition preserves the bookkeeping invariant. -/
theorem addFaceStep_inv (mesh : SelMesh) (index : List ℕ) (st : ToolState)
    (fi : ℕ) (h : ToolInv st) : ToolInv (addFaceStep mesh index st fi) := by
  obtain ⟨hsel, hkeys, hks, hsk⟩ := h
  set k := mesh.id * 1000000 + fi with hk
  have hselnew := addFaceStep_selected mesh index st fi
  have hkeysnew := addFaceStep_keys mesh index st fi
  by_cases hhas : mapHas st.faceData k = true
  · have hkin : k ∈ st.faceData.map (·.1) := (mapHas_iff _ _).mp hhas
    have hkin' : k ∈ st.selectedFaces := hks _ hkin
    rw [if_pos hhas] at hkeysnew
    refine ⟨?_, ?_, ?_, ?_⟩
    · rw [hselnew]; exact setAdd_nodup _ _ hsel
    · rw [hkeysnew]; exact hkeys
    · intro x hx
      rw [hkeysnew] at hx
      rw [hselnew, setAdd_mem]
      exact Or.inl (hks _ hx)
    · intro x hx
      rw [hselnew, setAdd_mem] at hx
      rw [hkeysnew]
      rcases hx with hx | rfl
      · exact hsk _ hx
      · exact hkin
  · have hhas' : mapHas st.faceData k = false := by
      simpa using hhas
    have hknotin : k ∉ st.faceData.map (·.1) := by
      intro hmem; exact hhas ((mapHas_iff _ _).mpr hmem)
    have hknotsel : k ∉ st.selectedFaces := fun hmem => hknotin (hsk _ hmem)
    rw [if_neg hhas] at hkeysnew
    refine ⟨?_, ?_, ?_, ?_⟩
    · rw [hselnew]; exact setAdd_nodup _ _ hsel
    · rw [hkeysnew]
      simp [List.nodup_append, hkeys, hknotin]
    · intro x hx
      rw [hkeysnew] at hx
      rw [hselnew, setAdd_mem]
      rcases List.mem_append.mp hx with hx | hx
      · exact Or.inl (hks _ hx)
      · simp at hx; exact Or.inr hx
    · intro x hx
      rw [hselnew, setAdd_mem] at hx
      rw [hkeysnew, List.mem_append]
      rcases hx with hx | rfl
      · exact Or.inl (hsk _ hx)
      · simp

/-- One face removal preserves the bookkeeping invariant. -/
theorem removeFaceStep_inv (mesh : SelMesh) (st : ToolState) (fi : ℕ)
    (h : ToolInv st) : ToolInv (removeFaceStep mesh st fi) := by
  obtain ⟨hsel, hkeys, hks, hsk⟩ := h
  simp only [removeFaceStep]
  split
  · next hmem =>
    refine ⟨hsel.erase _, ?_, ?_, ?_⟩
    · rw [mapDelete_keys]; exact hkeys.filter _
    · intro x hx
      rw [mapDelete_keys, List.mem_filter] at hx
      have hx1 := hks _ hx.1
      have hx2 : x ≠ mesh.id * 1000000 + fi := by simpa using hx.2
      exact (List.Nodup.mem_erase_iff hsel).mpr ⟨hx2, hx1⟩
    · intro x hx
      rw [List.Nodup.mem_erase_iff hsel] at hx
      rw [mapDelete_keys, List.mem_filter]
      exact ⟨hsk _ hx.2, by simpa using hx.1⟩
  · exact ⟨hsel, hkeys, hks, hsk⟩

/-- Selected-set membership across a fold of face additions. -/
theorem addFold_selected_mem (mesh : SelMesh) (index : List ℕ) (fl : List ℕ)
    (st : ToolState) (x : ℕ) :
    x ∈ (fl.foldl (addFaceStep mesh index) st).selectedFaces ↔
      x ∈ st.selectedFaces ∨ ∃ fi ∈ fl, x = mesh.id * 1000000 + fi := by
  induction fl generalizing st with
  | nil => simp
  | cons a rest ih =>
    rw [List.foldl_cons, ih]
    rw [addFaceStep_selected, setAdd_mem]
    constructor
    · rintro ((hx | rfl) | ⟨fi, hfi, rfl⟩)
      · exact Or.inl hx
      · exact Or.inr ⟨a, by simp⟩
      · exact Or.inr ⟨fi, by simp [hfi]⟩
    · rintro (hx | ⟨fi, hfi, rfl⟩)
      · exact Or.inl (Or.inl hx)
      · rcases List.mem_cons.mp hfi with rfl | hfi
        · exact Or.inl (Or.inr rfl)
        · exact Or.inr ⟨fi, hfi, rfl⟩

/-- Face removal never grows the selected set and removes every touched
identity; membership across a fold of removals. -/
theorem removeFold_selected_mem (mesh : SelMesh) (fl : List ℕ)
    (st : ToolState) (x : ℕ) (hsel : st.selectedFaces.Nodup) :
    x ∈ (fl.foldl (removeFaceStep mesh) st).selectedFaces ↔
      x ∈ st.selectedFaces ∧ ∀ fi ∈ fl, x ≠ mesh.id * 1000000 + fi := by
  induction fl generalizing st with
  | nil => simp
  | cons a rest ih =>
    have hstep_nodup : ((removeFaceStep mesh st a).selectedFaces).Nodup := by
      simp only [removeFaceStep]
      split
      · exact hsel.erase _
      · exact hsel
    rw [List.foldl_cons, ih _ hstep_nodup]
    have hstep_mem : x ∈ (removeFaceStep mesh st a).selectedFaces ↔
        x ∈ st.selectedFaces ∧ x ≠ mesh.id * 1000000 + a := by
      simp only [removeFaceStep]
      split
      · next hmem =>
        rw [List.Nodup.mem_erase_iff hsel]
        tauto
      · next hmem =>
        constructor
        · intro hx
          refine ⟨hx, ?_⟩
          rintro rfl
          exact hmem hx
        · exact fun hx => hx.1
    rw [hstep_mem]
    constructor
    · rintro ⟨⟨hx, hne⟩, hrest⟩
      refine ⟨hx, ?_⟩
      intro fi hfi
      rcases List.mem_cons.mp hfi with rfl | hfi
      · exact hne
      · exact hrest fi hfi
    · rintro ⟨hx, hall⟩
      exact ⟨⟨hx, hall a (by simp)⟩, fun fi hfi => hall fi (by simp [hfi])⟩

/-- Membership after one paint operation in add mode. -/
theorem select_add_mem (b : ℚ) (st : ToolState) (op : PaintOp) (x : ℕ) :
    x ∈ (selectFacesAroundPoint b false st op).selectedFaces ↔
      x ∈ st.selectedFaces ∨ x ∈ opIds b op := by
  unfold selectFacesAroundPoint opIds faceIdsWithinBrush
  cases hidx : op.mesh.index with
  | none => simp
  | some index =>
    simp only []
    split
    · next hb => exact absurd hb (by simp)
    · rw [addFold_selected_mem]
      simp only [List.mem_map, List.mem_filter, List.mem_range]
      constructor
      · rintro (hx | ⟨fi, hfi, rfl⟩)
        · exact Or.inl hx
        · exact Or.inr ⟨fi, hfi, rfl⟩
      · rintro (hx | ⟨fi, hfi, rfl⟩)
        · exact Or.inl hx
        · exact Or.inr ⟨fi, hfi, rfl⟩

/-- Membership after one paint operation in remove mode. -/
theorem select_remove_mem (b : ℚ) (st : ToolState) (op : PaintOp) (x : ℕ)
    (hsel : st.selectedFaces.Nodup) :
    x ∈ (selectFacesAroundPoint b true st op).selectedFaces ↔
      x ∈ st.selectedFaces ∧ x ∉ opIds b op := by
  unfold selectFacesAroundPoint opIds faceIdsWithinBrush
  cases hidx : op.mesh.index with
  | none => simp
  | some index =>
    simp only []
    split
    · rw [removeFold_selected_mem _ _ _ _ hsel]
      simp [List.mem_map]
      tauto
    · next hb => exact absurd trivial (by simp at hb)

/-- One paint operation (either mode) preserves the bookkeeping
invariant. -/
theorem select_inv (b : ℚ) (r : Bool) (st : ToolState) (op : PaintOp)
    (h : ToolInv st) : ToolInv (selectFacesAroundPoint b r st op) := by
  have hremfold : ∀ (fl : List ℕ) (st : ToolState), ToolInv st →
      ToolInv (fl.foldl (removeFaceStep op.mesh) st) := by
    intro fl
    induction fl with
    | nil => exact fun st h => h
    | cons a rest ih =>
      intro st h
      rw [List.foldl_cons]
      exact ih _ (removeFaceStep_inv _ _ _ h)
  have haddfold : ∀ (index : List ℕ) (fl : List ℕ) (st : ToolState), ToolInv st →
      ToolInv (fl.foldl (addFaceStep op.mesh index) st) := by
    intro index fl
    induction fl with
    | nil => exact fun st h => h
    | cons a rest ih =>
      intro st h
      rw [List.foldl_cons]
      exact ih _ (addFaceStep_inv _ _ _ _ h)
  unfold selectFacesAroundPoint
  cases hidx : op.mesh.index with
  | none => exact h
  | some index =>
    simp only []
    split
    · exact hremfold _ _ h
    · exact haddfold _ _ _ h

/-- The empty tool state satisfies the invariant. -/
theorem toolInv_empty : ToolInv ⟨[], []⟩ := by
  refine ⟨List.nodup_nil, List.nodup_nil, ?_, ?_⟩ <;> intro k hk <;> simp at hk

/-- Every event handler preserves the bookkeeping invariant. -/
theorem toolStep_inv (b : ℚ) (st : ToolState) (e : ToolEvent)
    (h : ToolInv st) : ToolInv (toolStep b st e) := by
  cases e with
  | paint r op => exact select_inv b r st op h
  | clear => exact toolInv_empty

/-- C10 — after any sequence of selection-engine operations (painting in
add mode, painting in remove mode, clearing) starting from the empty
state, the keys of the `faceData` cache are exactly the `selectedFaces`
set: every selected identity is cached and no cache entry survives
deselection or clearing. -/
theorem c10_faceData_keys_track_selection (b : ℚ) (events : List ToolEvent) :
    ∀ k : ℕ, k ∈ (runTool b events).faceData.map (·.1) ↔
      k ∈ (runTool b events).selectedFaces := by
  have hinv : ToolInv (runTool b events) := by
    unfold runTool
    induction events using List.reverseRecOn with
    | nil => exact toolInv_empty
    | append_singleton rest e ih =>
      rw [List.foldl_append, List.foldl_cons, List.foldl_nil]
      exact toolStep_inv b _ e ih
  exact fun k => ⟨hinv.2.2.1 k, hinv.2.2.2 k⟩

/-- C9 — painting any sequence of strokes in add mode from the empty
selection, then the identical sequence in remove mode (same points, same
surfaces, same brush radius), empties the selection again (both the
selected set and the cache). -/
theorem c9_add_remove_round_trip (b : ℚ) (ops : List PaintOp) :
    ((ops.map (ToolEvent.paint true)).foldl (toolStep b)
      ((ops.map (ToolEvent.paint false)).foldl (toolStep b) ⟨[], []⟩)).selectedFaces = [] ∧
    ((ops.map (ToolEvent.paint true)).foldl (toolStep b)
      ((ops.map (ToolEvent.paint false)).foldl (toolStep b) ⟨[], []⟩)).faceData = [] := by
  have addOps_mem : ∀ (l : List PaintOp) (st : ToolState) (x : ℕ),
      (x ∈ ((l.map (ToolEvent.paint false)).foldl (toolStep b) st).selectedFaces ↔
        x ∈ st.selectedFaces ∨ ∃ op ∈ l, x ∈ opIds b op) := by
    intro l
    induction l with
    | nil => simp
    | cons a rest ih =>
      intro st x
      simp only [List.map_cons, List.foldl_cons]
      rw [ih]
      show x ∈ (selectFacesAroundPoint b false st a).selectedFaces ∨ _ ↔ _
      rw [select_add_mem]
      constructor
      · rintro ((hx | hx) | ⟨op, hop, hx⟩)
        · exact Or.inl hx
        · exact Or.inr ⟨a, by simp, hx⟩
        · exact Or.inr ⟨op, by simp [hop], hx⟩
      · rintro (hx | ⟨op, hop, hx⟩)
        · exact Or.inl (Or.inl hx)
        · rcases List.mem_cons.mp hop with rfl | hop
          · exact Or.inl (Or.inr hx)
          · exact Or.inr ⟨op, hop, hx⟩
  have invFold : ∀ (evs : List ToolEvent) (st : ToolState), ToolInv st →
      ToolInv (evs.foldl (toolStep b) st) := by
    intro evs
    induction evs with
    | nil => exact fun st h => h
    | cons e rest ih =>
      intro st h
      rw [List.foldl_cons]
      exact ih _ (toolStep_inv b st e h)
  have removeOps_mem : ∀ (l : List PaintOp) (st : ToolState), ToolInv st →
      ∀ x : ℕ,
      (x ∈ ((l.map (ToolEvent.paint true)).foldl (toolStep b) st).selectedFaces ↔
        x ∈ st.selectedFaces ∧ ∀ op ∈ l, x ∉ opIds b op) := by
    intro l
    induction l with
    | nil => simp
    | cons a rest ih =>
      intro st hinv x
      simp only [List.map_cons, List.foldl_cons]
      rw [ih _ (toolStep_inv b st (ToolEvent.paint true a) hinv)]
      show x ∈ (selectFacesAroundPoint b true st a).selectedFaces ∧ _ ↔ _
      rw [select_remove_mem _ _ _ _ hinv.1]
      constructor
      · rintro ⟨⟨hx, hna⟩, hrest⟩
        refine ⟨hx, ?_⟩
        intro op hop
        rcases List.mem_cons.mp hop with rfl | hop
        · exact hna
        · exact hrest op hop
      · rintro ⟨hx, hall⟩
        exact ⟨⟨hx, hall a (by simp)⟩, fun op hop => hall op (by simp [hop])⟩
  set s1 := (ops.map (ToolEvent.paint false)).foldl (toolStep b)
    (⟨[], []⟩ : ToolState) with hs1
  have hinv1 : ToolInv s1 := invFold _ _ toolInv_empty
  set s2 := (ops.map (ToolEvent.paint true)).foldl (toolStep b) s1 with hs2
  have hinv2 : ToolInv s2 := invFold _ _ hinv1
  have hempty : ∀ x : ℕ, x ∉ s2.selectedFaces := by
    intro x hx
    rw [removeOps_mem ops s1 hinv1 x] at hx
    obtain ⟨hx1, hall⟩ := hx
    rw [addOps_mem ops _ x] at hx1
    rcases hx1 with hx1 | ⟨op, hop, hx1⟩
    · simp at hx1
    · exact hall op hop hx1
  have hselnil : s2.selectedFaces = [] :=
    List.eq_nil_iff_forall_not_mem.mpr hempty
  refine ⟨hselnil, ?_⟩
  have hkeysnil : s2.faceData.map (·.1) = [] := by
    rw [List.eq_nil_iff_forall_not_mem]
    intro k hk
    exact hempty k (hinv2.2.2.1 k hk)
  exact List.map_eq_nil_iff.mp hkeysnil

/-- A `filterMap` whose test holds on every element is a `map`. -/
theorem filterMap_if_all {α β : Type} (p : α → Prop) [DecidablePred p]
    (g : α → β) (l : List α) (h : ∀ x ∈ l, p x) :
    (l.filterMap (fun x => if p x then some (g x) else none)) = l.map g := by
  induction l with
  | nil => rfl
  | cons a rest ih =>
    rw [List.filterMap_cons, if_pos (h a (by simp)), List.map_cons]
    rw [ih (fun x hx => h x (by simp [hx]))]

/-- Sum of a constant-magnitude weight list. -/
theorem sum_magnitudes_const (w : ℚ) (l : List Weight)
    (h : ∀ x ∈ l, x.magnitude = w) :
    (l.map (·.magnitude)).sum = l.length * w := by
  induction l with
  | nil => simp
  | cons a rest ih =>
    rw [List.map_cons, List.sum_cons, ih (fun x hx => h x (by simp [hx]))]
    rw [h a (by simp), List.length_cons]
    push_cast
    ring

/-- Characterisation of a commit on a selection satisfying the
bookkeeping invariant: it succeeds, replaces the painted weights with
one load of magnitude `weightPerFace` per selected face and rebuilds one
marker per load. -/
theorem applyWeight_characterisation (wm : WeightManagerState)
    (hull : PhysicsState) (hinv : ToolInv wm.tool)
    (hne : wm.tool.selectedFaces ≠ []) :
    (applyWeightToSelection wm hull).1 = true ∧
    ((applyWeightToSelection wm hull).2.2).paintedWeights.length =
      wm.tool.selectedFaces.length ∧
    (∀ x ∈ ((applyWeightToSelection wm hull).2.2).paintedWeights,
      x.magnitude = wm.weightPerFace) ∧
    ((applyWeightToSelection wm hull).2.2).weight = hull.weight ∧
    ((applyWeightToSelection wm hull).2.2).customWeights = hull.customWeights ∧
    (applyWeightToSelection wm hull).2.1.weightMarkers.length =
      wm.tool.selectedFaces.length := by
  obtain ⟨hsel, hkeys, hks, hsk⟩ := hinv
  have hfdne : ¬ wm.tool.faceData.length = 0 := by
    intro hzero
    obtain ⟨x, hx⟩ := List.exists_mem_of_ne_nil _ hne
    have hxk := hsk x hx
    rw [List.length_eq_zero.mp hzero] at hxk
    simp at hxk
  have hweights : wm.tool.faceData.filterMap (fun e =>
      if e.1 ∈ wm.tool.selectedFaces then
        some (⟨e.2.worldCenter, wm.weightPerFace⟩ : Weight) else none) =
      wm.tool.faceData.map
        (fun e => ⟨e.2.worldCenter, wm.weightPerFace⟩) := by
    exact filterMap_if_all (fun e => e.1 ∈ wm.tool.selectedFaces)
      (fun e => (⟨e.2.worldCenter, wm.weightPerFace⟩ : Weight))
      wm.tool.faceData
      (fun e he => hks e.1 (List.mem_map.mpr ⟨e, he, rfl⟩))
  have hlen : wm.tool.faceData.length = wm.tool.selectedFaces.length := by
    have hperm : (wm.tool.faceData.map (·.1)).Perm wm.tool.selectedFaces :=
      (List.perm_ext_iff_of_nodup hkeys hsel).mpr (fun a => ⟨hks a, hsk a⟩)
    calc wm.tool.faceData.length
        = (wm.tool.faceData.map (·.1)).length := (List.length_map _ _).symm
      _ = wm.tool.selectedFaces.length := hperm.length_eq
  have happ : applyWeightToSelection wm hull =
      (true,
       { wm with
         weightMarkers := wm.tool.faceData.map
           (fun e => ⟨e.2.worldCenter, wm.weightPerFace⟩)
         tool := clearSelection wm.tool },
       setPaintedWeights hull (wm.tool.faceData.map
         (fun e => ⟨e.2.worldCenter, wm.weightPerFace⟩))) := by
    unfold applyWeightToSelection
    rw [if_neg hfdne, hweights]
  rw [happ]
  simp only [setPaintedWeights]
  refine ⟨trivial, ?_, ?_, trivial, trivial, ?_⟩
  · rw [List.length_map, hlen]
  · intro x hx
    obtain ⟨e, _, rfl⟩ := List.mem_map.mp hx
    rfl
  · rw [List.length_map, hlen]

/-- C2 — weight conservation: committing a selection of `k` faces at
weight-per-face `w` on a ledger with base weight `b` and custom weights
`c₁..cₙ` makes `getTotalWeight()` equal `b + Σcᵢ + k·w`; the value only
depends on the number of selected faces (hence not on the order in which
they were selected before the commit). -/
theorem c2_weight_conservation (hull : PhysicsState) (markers : List Weight)
    (t : ToolState) (k : ℕ) (w : ℚ) (hinv : ToolInv t)
    (hk : t.selectedFaces.length = k) (hpos : 0 < k) :
    getTotalWeight (applyWeightToSelection ⟨w, markers, t⟩ hull).2.2 =
      hull.weight + (hull.customWeights.map (·.magnitude)).sum + k * w ∧
    (∀ t' : ToolState, ToolInv t' → t'.selectedFaces.length = k →
      getTotalWeight (applyWeightToSelection ⟨w, markers, t⟩ hull).2.2 =
        getTotalWeight (applyWeightToSelection ⟨w, markers, t'⟩ hull).2.2) := by
  have main : ∀ t0 : ToolState, ToolInv t0 → t0.selectedFaces.length = k →
      getTotalWeight (applyWeightToSelection ⟨w, markers, t0⟩ hull).2.2 =
        hull.weight + (hull.customWeights.map (·.magnitude)).sum + k * w := by
    intro t0 hinv0 hk0
    have hne : t0.selectedFaces ≠ [] := by
      intro hnil
      rw [hnil] at hk0
      simp at hk0
      omega
    obtain ⟨_, hplen, hpmag, hbase, hcustom, _⟩ :=
      applyWeight_characterisation ⟨w, markers, t0⟩ hull hinv0 hne
    unfold getTotalWeight
    rw [hbase, hcustom]
    rw [sum_magnitudes_const w _ hpmag, hplen]
    simp only []
    rw [hk0]
  exact ⟨main t hinv hk, fun t' h1 h2 => by rw [main t hinv hk, main t' h1 h2]⟩

/-- Witness for `c2_weight_conservation`: a concrete two-face selection
(`k = 2`, `w = 10`) over a ledger with base weight 5 and one custom
3-kg load yields total weight `5 + 3 + 2·10 = 28`. -/
theorem c2_weight_conservation_witness :
    ToolInv ((selectFacesAroundPoint (1/2) false
        (selectFacesAroundPoint (1/2) false ⟨[], []⟩ wOp1) wOp2)) ∧
    getTotalWeight (applyWeightToSelection
      ⟨10, [],
        selectFacesAroundPoint (1/2) false
          (selectFacesAroundPoint (1/2) false ⟨[], []⟩ wOp1) wOp2⟩
      ⟨0, 5, [⟨⟨0, 0, 0⟩, 3⟩], []⟩).2.2 =
      5 + 3 + 2 * 10 := by
  have hinv : ToolInv ((selectFacesAroundPoint (1/2) false
      (selectFacesAroundPoint (1/2) false ⟨[], []⟩ wOp1) wOp2)) := by
    with_unfolding_all decide
  refine ⟨hinv, ?_⟩
  have h := (c2_weight_conservation ⟨0, 5, [⟨⟨0, 0, 0⟩, 3⟩], []⟩ []
    (selectFacesAroundPoint (1/2) false
      (selectFacesAroundPoint (1/2) false ⟨[], []⟩ wOp1) wOp2) 2 10
    hinv (by with_unfolding_all decide) (by decide)).1
  rw [h]
  norm_num

/-- C1 (amended) — painting one face with weight-per-face 10 kg,
applying, then painting a second face and applying again yields
`getAppliedWeight() = 10` and `getAppliedWeightCount() = 1`: each
`applyWeightToSelection` call *replaces* the hull's painted weights
(`setPaintedWeights`) and rebuilds the marker group from scratch, so
only the last committed selection is retained. -/
theorem c1_amended_second_apply_replaces (hull0 : PhysicsState)
    (markers0 : List Weight) (t1 t2 : ToolState)
    (h1 : ToolInv t1) (h2 : ToolInv t2)
    (k1 : t1.selectedFaces.length = 1) (k2 : t2.selectedFaces.length = 1) :
    getAppliedWeight (applyWeightToSelection
      { (applyWeightToSelection ⟨10, markers0, t1⟩ hull0).2.1 with tool := t2 }
      (applyWeightToSelection ⟨10, markers0, t1⟩ hull0).2.2).2.2 = 10 ∧
    getAppliedWeightCount (applyWeightToSelection
      { (applyWeightToSelection ⟨10, markers0, t1⟩ hull0).2.1 with tool := t2 }
      (applyWeightToSelection ⟨10, markers0, t1⟩ hull0).2.2).2.1 = 1 := by
  have hne2 : t2.selectedFaces ≠ [] := by
    intro hnil
    rw [hnil] at k2
    simp at k2
  set wm2 : WeightManagerState :=
    { (applyWeightToSelection ⟨10, markers0, t1⟩ hull0).2.1 with tool := t2 }
    with hwm2
  have hwpf : wm2.weightPerFace = 10 := by
    rw [hwm2]
    show (applyWeightToSelection ⟨10, markers0, t1⟩ hull0).2.1.weightPerFace = 10
    unfold applyWeightToSelection
    split <;> rfl
  obtain ⟨_, hplen, hpmag, _, _, hmark⟩ :=
    applyWeight_characterisation wm2
      (applyWeightToSelection ⟨10, markers0, t1⟩ hull0).2.2 h2 hne2
  constructor
  · unfold getAppliedWeight getPaintedWeights
    rw [sum_magnitudes_const wm2.weightPerFace _ hpmag, hplen]
    show (wm2.tool.selectedFaces.length : ℚ) * wm2.weightPerFace = 10
    have : wm2.tool.selectedFaces.length = 1 := by
      rw [hwm2]; exact k2
    rw [this, hwpf]
    norm_num
  · unfold getAppliedWeightCount
    rw [hmark]
    rw [hwm2]; exact k2

/-- Witness for `c1_amended_second_apply_replaces`: the concrete
two-stroke scenario over the two-triangle surface. -/
theorem c1_amended_witness :
    ToolInv (selectFacesAroundPoint (1/2) false ⟨[], []⟩ wOp1) ∧
    ToolInv (selectFacesAroundPoint (1/2) false ⟨[], []⟩ wOp2) ∧
    (selectFacesAroundPoint (1/2) false ⟨[], []⟩ wOp1).selectedFaces.length = 1 ∧
    (selectFacesAroundPoint (1/2) false ⟨[], []⟩ wOp2).selectedFaces.length = 1 ∧
    (getAppliedWeight (applyWeightToSelection
      { (applyWeightToSelection
          ⟨10, [], selectFacesAroundPoint (1/2) false ⟨[], []⟩ wOp1⟩
          ⟨0, 0, [], []⟩).2.1 with
        tool := selectFacesAroundPoint (1/2) false ⟨[], []⟩ wOp2 }
      (applyWeightToSelection
          ⟨10, [], selectFacesAroundPoint (1/2) false ⟨[], []⟩ wOp1⟩
          ⟨0, 0, [], []⟩).2.2).2.2 = 10) := by
  refine ⟨by with_unfolding_all decide, by with_unfolding_all decide,
    by with_unfolding_all decide, by with_unfolding_all decide, ?_⟩
  exact (c1_amended_second_apply_replaces ⟨0, 0, [], []⟩ []
    (selectFacesAroundPoint (1/2) false ⟨[], []⟩ wOp1)
    (selectFacesAroundPoint (1/2) false ⟨[], []⟩ wOp2)
    (by with_unfolding_all decide) (by with_unfolding_all decide)
    (by with_unfolding_all decide) (by with_unfolding_all decide)).1

/-- Entries of `enumFrom` carry list members. -/
theorem snd_mem_of_mem_enumFrom {α : Type} :
    ∀ (l : List α) (n : ℕ) (p : ℕ × α), p ∈ l.enumFrom n → p.2 ∈ l := by
  intro l
  induction l with
  | nil => intro n p hp; simp at hp
  | cons a rest ih =>
    intro n p hp
    rcases List.mem_cons.mp hp with rfl | hp
    · simp
    · exact List.mem_cons.mpr (Or.inr (ih _ _ hp))

/-- Appending a mirror-closed block preserves mirror closure. -/
theorem mirrorClosed_append (l b : List Vec3) (hl : MirrorClosed l)
    (hb : ∀ v ∈ b, mirrorVec v ∈ b) : MirrorClosed (l ++ b) := by
  intro v hv
  rcases List.mem_append.mp hv with hv | hv
  · exact List.mem_append.mpr (Or.inl (hl v hv))
  · exact List.mem_append.mpr (Or.inr (hb v hv))

/-- One vertex-generation step over an all-symmetric station keeps the
buffer mirror-closed: the starboard fallback makes the starboard/port
pair exact mirror images, the keel vertex lies on the centerline and the
chine inset pair mirrors as well. -/
theorem genWaterlineStep_mirror (scale : ℚ) (hK hC : Bool) (sIdx : ℕ)
    (station : Station) (wIdx : ℕ) (wH : ℚ) (acc : GenAcc)
    (hst : ∀ wl ∈ station.waterlines, wl.halfBreadthStarboard = none)
    (h : MirrorClosed acc.vertices) :
    MirrorClosed (genWaterlineStep scale hK hC sIdx station wIdx wH acc).vertices := by
  unfold genWaterlineStep
  cases hfind : station.waterlines.find? (fun wl => wl.height = wH) with
  | none => exact h
  | some wlData =>
    have hmem : wlData ∈ station.waterlines := List.mem_of_find?_eq_some hfind
    have hsb : wlData.halfBreadthStarboard = none := hst wlData hmem
    simp only [hsb, Option.getD_none]
    by_cases hk : (hK && wIdx == 0) = true
    · by_cases hc : (hC && wIdx == 0) = true
      · simp only [hk, hc, if_true, List.append_assoc]
        refine mirrorClosed_append _ _ h ?_
        intro v hv
        simp only [List.mem_append, List.mem_singleton] at hv
        rcases hv with rfl | rfl | rfl | rfl | rfl <;>
          simp [mirrorVec, List.mem_append]
      · simp only [hk, hc, if_true, Bool.false_eq_true, if_false,
          List.append_assoc]
        refine mirrorClosed_append _ _ h ?_
        intro v hv
        simp only [List.mem_append, List.mem_singleton] at hv
        rcases hv with rfl | rfl | rfl <;>
          simp [mirrorVec, List.mem_append]
    · by_cases hc : (hC && wIdx == 0) = true
      · simp only [hk, hc, if_true, Bool.false_eq_true, if_false,
          List.append_assoc]
        refine mirrorClosed_append _ _ h ?_
        intro v hv
        simp only [List.mem_append, List.mem_singleton] at hv
        rcases hv with rfl | rfl | rfl | rfl <;>
          simp [mirrorVec, List.mem_append]
      · simp only [hk, hc, Bool.false_eq_true, if_false, List.append_assoc]
        refine mirrorClosed_append _ _ h ?_
        intro v hv
        simp only [List.mem_append, List.mem_singleton] at hv
        rcases hv with rfl | rfl <;>
          simp [mirrorVec, List.mem_append]

/-- C5-helper: `generateVertices` of an all-symmetric table yields a
mirror-closed vertex buffer. -/
theorem generateVertices_mirror (scale : ℚ) (t : QuoteTable)
    (hsym : allSymmetric t) :
    MirrorClosed (generateVertices scale t).vertices := by
  have hsorted : ∀ st ∈ getSortedStations t, ∀ wl ∈ st.waterlines,
      wl.halfBreadthStarboard = none := by
    intro st hst
    have : st ∈ t.stations :=
      (List.perm_insertionSort stationLE t.stations).mem_iff.mp hst
    exact hsym st this
  unfold generateVertices
  have hinner : ∀ (sp : ℕ × Station), sp.2 ∈ getSortedStations t →
      ∀ (wps : List (ℕ × ℚ)) (acc : GenAcc), MirrorClosed acc.vertices →
      MirrorClosed ((wps.foldl (fun acc wp =>
        genWaterlineStep scale (t.metadata.hasKeel.getD false)
          (t.metadata.hasChine.getD false) sp.1 sp.2 wp.1 wp.2 acc)) acc).vertices := by
    intro sp hsp wps
    induction wps with
    | nil => exact fun acc h => h
    | cons wp rest ih =>
      intro acc h
      simp only [List.foldl_cons]
      exact ih _ (genWaterlineStep_mirror _ _ _ _ _ _ _ _
        (hsorted sp.2 hsp) h)
  have houter : ∀ (sps : List (ℕ × Station)),
      (∀ sp ∈ sps, sp.2 ∈ getSortedStations t) →
      ∀ acc : GenAcc, MirrorClosed acc.vertices →
      MirrorClosed ((sps.foldl (fun acc sp =>
        (getSortedWaterlines t).enum.foldl (fun acc wp =>
          genWaterlineStep scale (t.metadata.hasKeel.getD false)
            (t.metadata.hasChine.getD false) sp.1 sp.2 wp.1 wp.2 acc) acc)) acc).vertices := by
    intro sps
    induction sps with
    | nil => exact fun _ acc h => h
    | cons sp rest ih =>
      intro hmem acc h
      simp only [List.foldl_cons]
      exact ih (fun q hq => hmem q (by simp [hq]))
        _ (hinner sp (hmem sp (by simp)) _ acc h)
  exact houter (getSortedStations t).enum
    (fun sp hsp => snd_mem_of_mem_enumFrom _ _ _ hsp) ⟨[], [], []⟩
    (fun v hv => by simp at hv)

/-- Appending a (port, mirrored starboard) pair preserves the paired
mirror arrangement. -/
theorem pairsMirrored_append_pair (a b : Vec3) (hb : b = mirrorVec a) :
    ∀ l : List Vec3, pairsMirrored l → pairsMirrored (l ++ [a, b])
  | [], _ => by simp [pairsMirrored, hb]
  | [_], hl => absurd hl (by simp [pairsMirrored])
  | x :: y :: rest, hl => by
    obtain ⟨hxy, hrest⟩ := hl
    exact ⟨hxy, pairsMirrored_append_pair a b hb rest hrest⟩

/-- `nearestBy` returns the seed or a list element. -/
theorem nearestBy_mem {α : Type} (d : α → ℚ) :
    ∀ (l : List α) (seed : α), nearestBy l seed d ∈ seed :: l := by
  intro l
  induction l with
  | nil => intro seed; simp [nearestBy]
  | cons a rest ih =>
    intro seed
    unfold nearestBy at ih ⊢
    rw [List.foldl_cons]
    by_cases hd : d a < d seed
    · rw [if_pos hd]
      rcases List.mem_cons.mp (ih a) with h | h
      · rw [h]; simp
      · simp [h]
    · rw [if_neg hd]
      rcases List.mem_cons.mp (ih seed) with h | h
      · rw [h]; simp
      · simp [h]

/-- C5-helper: the interpolator preserves the all-symmetric shape
(interpolated samples carry `none` starboard whenever the bracketing
samples do, and the bilinear fallback always emits `none`). -/
theorem interpolateHullGrid_allSymmetric (t : QuoteTable) (cfg : LODConfig)
    (hsym : allSymmetric t) : allSymmetric (interpolateHullGrid t cfg) := by
  have hmem_sorted : ∀ st ∈ getSortedStations t, ∀ wl ∈ st.waterlines,
      wl.halfBreadthStarboard = none := by
    intro st hst
    exact hsym st ((List.perm_insertionSort stationLE t.stations).mem_iff.mp hst)
  have hstationAt : ∀ (lower upper : Station) (ratio h : ℚ),
      (∀ wl ∈ lower.waterlines, wl.halfBreadthStarboard = none) →
      (∀ wl ∈ upper.waterlines, wl.halfBreadthStarboard = none) →
      (interpolateWaterlineAt t lower upper ratio h).halfBreadthStarboard = none := by
    intro lower upper ratio h hlo hup
    unfold interpolateWaterlineAt
    cases hfl : wlNear lower h with
    | none =>
      cases hfu : wlNear upper h with
      | none => rfl
      | some up => exact hup up (List.mem_of_find?_eq_some hfu)
    | some lo =>
      cases hfu : wlNear upper h with
      | none => exact hlo lo (List.mem_of_find?_eq_some hfl)
      | some up =>
        have : lo.halfBreadthStarboard = none :=
          hlo lo (List.mem_of_find?_eq_some hfl)
        simp only [this]

  have hbr_mem : ∀ (sorted : List Station) (p : ℚ) (a b : Station),
      bracketStations sorted p = some (a, b) → a ∈ sorted ∧ b ∈ sorted := by
    intro sorted p a b h
    unfold bracketStations at h
    split at h
    · exact absurd h (by simp)
    · next i hfind =>
      cases hga : sorted.get? i with
      | none => rw [hga] at h; simp at h
      | some x =>
        cases hgb : sorted.get? (i + 1) with
        | none => rw [hga, hgb] at h; simp at h
        | some y =>
          rw [hga, hgb] at h
          simp only [Option.some.injEq, Prod.mk.injEq] at h
          obtain ⟨rfl, rfl⟩ := h
          exact ⟨List.get?_mem hga, List.get?_mem hgb⟩
  have hres : ∀ (sorted : List Station) (p : ℚ),
      (∀ st ∈ sorted, ∀ wl ∈ st.waterlines, wl.halfBreadthStarboard = none) →
      (∀ wl ∈ (resolveBracket sorted p).1.waterlines,
        wl.halfBreadthStarboard = none) ∧
      (∀ wl ∈ (resolveBracket sorted p).2.1.waterlines,
        wl.halfBreadthStarboard = none) := by
    intro sorted p hs
    unfold resolveBracket
    cases hbr : bracketStations sorted p with
    | some ab =>
      obtain ⟨a, b⟩ := ab
      obtain ⟨ha, hb⟩ := hbr_mem sorted p a b hbr
      simp only []
      exact ⟨hs a ha, hs b hb⟩
    | none =>
      cases sorted with
      | nil => constructor <;> intro wl hwl <;> simp at hwl
      | cons s0 rest =>
        have hn := nearestBy_mem (fun st => |p - st.position|) (s0 :: rest) s0
        have hmem : nearestBy (s0 :: rest) s0 (fun st => |p - st.position|) ∈ s0 :: rest := by
          rcases List.mem_cons.mp hn with h | h
          · rw [h]; simp
          · exact h
        simp only []
        constructor <;> intro wl hwl <;>
          exact hs _ hmem wl hwl
  by_cases hc1 : cfg.stationMultiplier ≤ 1 ∧ cfg.waterlineMultiplier ≤ 1
  · simp only [interpolateHullGrid, if_pos hc1]
    exact hsym
  · simp only [interpolateHullGrid, if_neg hc1]
    by_cases hc2 : (getSortedStations t).length = 0 ∨
        (getSortedWaterlines t).length = 0
    · simp only [if_pos hc2]
      exact hsym
    · simp only [if_neg hc2]
      intro st hst wl hwl
      simp only [List.mem_map] at hst
      obtain ⟨p, _, rfl⟩ := hst
      unfold interpolateStationAt at hwl
      simp only [List.mem_map] at hwl
      obtain ⟨h, _, rfl⟩ := hwl
      obtain ⟨hlo, hup⟩ := hres (getSortedStations t) p hmem_sorted
      exact hstationAt _ _ _ h hlo hup

/-- C5-helper: station-curve points of an all-symmetric table come in
(port, mirrored starboard) pairs. -/
theorem stationCurves_mirrored (scale : ℚ) (t : QuoteTable)
    (hsym : allSymmetric t) :
    ∀ pr ∈ generateStationCurves scale t, pairsMirrored pr.2 := by
  intro pr hpr
  unfold generateStationCurves at hpr
  simp only [List.mem_map] at hpr
  obtain ⟨station, hstmem, rfl⟩ := hpr
  have hst : ∀ wl ∈ station.waterlines, wl.halfBreadthStarboard = none :=
    hsym station
      ((List.perm_insertionSort stationLE t.stations).mem_iff.mp hstmem)
  show pairsMirrored ((getSortedWaterlines t).foldl (stationCurveStep scale station) [])
  have hfold : ∀ (ws : List ℚ) (acc : List Vec3), pairsMirrored acc →
      pairsMirrored (ws.foldl (stationCurveStep scale station) acc) := by
    intro ws
    induction ws with
    | nil => exact fun acc h => h
    | cons wH rest ih =>
      intro acc h
      rw [List.foldl_cons]
      apply ih
      unfold stationCurveStep
      cases hfind : station.waterlines.find? (fun wl => wl.height = wH) with
      | none => exact h
      | some wlData =>
        have hsb := hst wlData (List.mem_of_find?_eq_some hfind)
        simp only [hsb, Option.getD_none]
        exact pairsMirrored_append_pair _ _ (by simp [mirrorVec]) acc h
  exact hfold _ [] trivial

/-- C5-helper: the symmetry metadata flag plays no role in vertex
generation, half-breadth lookup or curve generation. -/
theorem symmetry_flag_ignored (scale : ℚ) (t : QuoteTable)
    (o : Option Symmetry) :
    generateVertices scale (setSymmetry t o) = generateVertices scale t ∧
    (∀ s w side, getHalfBreadth (setSymmetry t o) s w side =
      getHalfBreadth t s w side) ∧
    generateStationCurves scale (setSymmetry t o) =
      generateStationCurves scale t := by
  refine ⟨rfl, fun s w side => rfl, rfl⟩

/-- C5-helper: the interpolator's station output ignores the symmetry
metadata flag (the flag is merely copied into the output metadata). -/
theorem interpolate_symmetry_flag_ignored (t : QuoteTable)
    (o : Option Symmetry) (cfg : LODConfig) :
    (interpolateHullGrid (setSymmetry t o) cfg).stations =
      (interpolateHullGrid t cfg).stations := by
  have e1 : getSortedStations (setSymmetry t o) = getSortedStations t := rfl
  have e2 : getSortedWaterlines (setSymmetry t o) = getSortedWaterlines t := rfl
  have e3 : interpolateStationAt (setSymmetry t o) = interpolateStationAt t := rfl
  by_cases hc1 : cfg.stationMultiplier ≤ 1 ∧ cfg.waterlineMultiplier ≤ 1
  · simp only [interpolateHullGrid, if_pos hc1]
    rfl
  · simp only [interpolateHullGrid, if_neg hc1, e1, e2, e3]
    by_cases hc2 : (getSortedStations t).length = 0 ∨
        (getSortedWaterlines t).length = 0
    · simp only [if_pos hc2]
      rfl
    · simp only [if_neg hc2]

/-- C5 — symmetric fallback: (i) the half-breadth getter returns the
port value for a starboard query on a sample without
`halfBreadthStarboard`; (ii) vertex generation of an all-symmetric table
produces a vertex buffer symmetric about the centerline; (iii) the
interpolator keeps an all-symmetric table all-symmetric (so downstream
consumers keep falling back to port); (iv) station-curve generation
emits mirrored port/starboard point pairs; (v) none of these consumers
consults the table-level symmetry metadata flag — changing the flag
changes none of their outputs. -/
theorem c5_symmetric_fallback (scale : ℚ) (t : QuoteTable) (cfg : LODConfig) :
    (∀ s w data, getWaterlineData t s w = some data →
      data.halfBreadthStarboard = none →
      getHalfBreadth t s w .starboard = getHalfBreadth t s w .port) ∧
    (allSymmetric t → MirrorClosed (generateVertices scale t).vertices) ∧
    (allSymmetric t → allSymmetric (interpolateHullGrid t cfg)) ∧
    (allSymmetric t → ∀ pr ∈ generateStationCurves scale t, pairsMirrored pr.2) ∧
    (∀ o : Option Symmetry,
      generateVertices scale (setSymmetry t o) = generateVertices scale t ∧
      (∀ s w side, getHalfBreadth (setSymmetry t o) s w side =
        getHalfBreadth t s w side) ∧
      generateStationCurves scale (setSymmetry t o) =
        generateStationCurves scale t ∧
      (interpolateHullGrid (setSymmetry t o) cfg).stations =
        (interpolateHullGrid t cfg).stations) := by
  refine ⟨?_, generateVertices_mirror scale t,
    interpolateHullGrid_allSymmetric t cfg,
    stationCurves_mirrored scale t,
    fun o => ⟨(symmetry_flag_ignored scale t o).1,
      (symmetry_flag_ignored scale t o).2.1,
      (symmetry_flag_ignored scale t o).2.2,
      interpolate_symmetry_flag_ignored t o cfg⟩⟩
  intro s w data hdata hsb
  unfold getHalfBreadth
  rw [hdata]
  simp only [hsb]

/-- Witness for `c5_symmetric_fallback`: the all-symmetric table `T3`
(every sample omits starboard) yields a centerline-symmetric vertex
buffer; the starboard lookup at a concrete sample equals the port
lookup. -/
theorem c5_symmetric_fallback_witness :
    allSymmetric T3 ∧
    getWaterlineData T3 1 1 = some ⟨1, 7/2, none⟩ ∧
    MirrorClosed (generateVertices 1 T3).vertices ∧
    getHalfBreadth T3 1 1 .starboard = getHalfBreadth T3 1 1 .port := by
  refine ⟨by with_unfolding_all decide, by with_unfolding_all decide, ?_, ?_⟩
  · exact (c5_symmetric_fallback 1 T3 ⟨1, 1, true⟩).2.1
      (by with_unfolding_all decide)
  · exact (c5_symmetric_fallback 1 T3 ⟨1, 1, true⟩).1 1 1 ⟨1, 7/2, none⟩
      (by with_unfolding_all decide) rfl

/-- Every member of a `≤`-sorted rational list is bounded by its last
element. -/
theorem pairwise_le_last (l : List ℚ) (h : l.Pairwise (· ≤ ·)) :
    ∀ q ∈ l, ∀ z, l.getLast? = some z → q ≤ z := by
  induction l with
  | nil => simp
  | cons a rest ih =>
    intro q hq z hz
    cases rest with
    | nil =>
      simp at hq hz
      rw [hq, hz]
    | cons b rs =>
      rw [List.getLast?_cons_cons] at hz
      have hz_mem : z ∈ b :: rs := List.mem_of_getLast?_eq_some hz
      rcases List.mem_cons.mp hq with rfl | hq
      · exact (List.pairwise_cons.mp h).1 z hz_mem
      · exact ih (List.pairwise_cons.mp h).2 q hq z hz

/-- C6 (amended) — densification monotonicity: for a table with `N ≥ 2`
stations at distinct positions, at least one waterline sample, and a
station multiplier `m > 1`, the interpolated table has exactly
`max(2, round((N−1)·m) + 1)` stations (`denseCount`), their positions
are strictly increasing, and all of them lie within the closed interval
spanned by the original station positions (no extrapolation). -/
theorem c6_densification (t : QuoteTable) (cfg : LODConfig)
    (hN : 2 ≤ t.stations.length)
    (hnd : (t.stations.map (·.position)).Nodup)
    (hm : 1 < cfg.stationMultiplier)
    (hwl : getSortedWaterlines t ≠ []) :
    (interpolateHullGrid t cfg).stations.length =
      denseCount t.stations.length cfg.stationMultiplier ∧
    ((interpolateHullGrid t cfg).stations.map (·.position)).Chain' (· < ·) ∧
    (∃ lo hi, lo ∈ t.stations.map (·.position) ∧
      hi ∈ t.stations.map (·.position) ∧
      (∀ q ∈ t.stations.map (·.position), lo ≤ q ∧ q ≤ hi) ∧
      (∀ p ∈ (interpolateHullGrid t cfg).stations.map (·.position),
        lo ≤ p ∧ p ≤ hi)) := by
  have hperm : (getSortedStations t).Perm t.stations :=
    List.perm_insertionSort stationLE t.stations
  have hlen_sorted : (getSortedStations t).length = t.stations.length :=
    hperm.length_eq
  have hc1 : ¬(cfg.stationMultiplier ≤ 1 ∧ cfg.waterlineMultiplier ≤ 1) :=
    fun hand => absurd hm (not_lt.mpr hand.1)
  have hc2 : ¬((getSortedStations t).length = 0 ∨
      (getSortedWaterlines t).length = 0) := by
    push_neg
    exact ⟨by omega, fun hz => hwl (List.length_eq_zero.mp hz)⟩
  have hinterp : (interpolateHullGrid t cfg).stations =
      (densePositions (((getSortedStations t).head?.map (·.position)).getD 0)
        (((getSortedStations t).getLast?.map (·.position)).getD 0)
        (denseCount (getSortedStations t).length cfg.stationMultiplier)).map
        (interpolateStationAt t (getSortedStations t)
          (densePositions ((getSortedWaterlines t).head?.getD 0)
            ((getSortedWaterlines t).getLast?.getD 0)
            (denseCount (getSortedWaterlines t).length cfg.waterlineMultiplier))) := by
    simp only [interpolateHullGrid, if_neg hc1, if_neg hc2]
  have hposeq : ∀ (dW : List ℚ) (f l : ℚ) (n : ℕ),
      ((densePositions f l n).map
        (interpolateStationAt t (getSortedStations t) dW)).map (·.position) =
      densePositions f l n := by
    intro dW f l n
    rw [List.map_map]
    have hcomp : ((fun st : Station => st.position) ∘
        interpolateStationAt t (getSortedStations t) dW) = id := rfl
    rw [hcomp, List.map_id]
  have hpos : (interpolateHullGrid t cfg).stations.map (·.position) =
      densePositions (((getSortedStations t).head?.map (·.position)).getD 0)
        (((getSortedStations t).getLast?.map (·.position)).getD 0)
        (denseCount (getSortedStations t).length cfg.stationMultiplier) := by
    rw [hinterp, hposeq]
  -- sorted-station facts
  obtain ⟨s0, rest, hse⟩ : ∃ s0 rest, getSortedStations t = s0 :: rest := by
    cases h : getSortedStations t with
    | nil => rw [h] at hlen_sorted; simp at hlen_sorted; omega
    | cons a b => exact ⟨a, b, rfl⟩
  have hsorted : (getSortedStations t).Sorted stationLE :=
    List.sorted_insertionSort stationLE t.stations
  have hps_le : ((getSortedStations t).map (·.position)).Pairwise (· ≤ ·) := by
    rw [List.pairwise_map]
    exact hsorted
  have hps_nodup : ((getSortedStations t).map (·.position)).Nodup :=
    ((hperm.map (·.position)).nodup_iff).mpr hnd
  have hps_lt : ((getSortedStations t).map (·.position)).Pairwise (· < ·) :=
    (hps_le.and hps_nodup).imp (fun hab => lt_of_le_of_ne hab.1 hab.2)
  obtain ⟨lastSt, hlastSt⟩ : ∃ z, (getSortedStations t).getLast? = some z := by
    rw [hse]
    exact ⟨(s0 :: rest).getLast (by simp), List.getLast?_eq_getLast _ _⟩
  have hfirstv : (((getSortedStations t).head?.map (·.position)).getD 0) =
      s0.position := by rw [hse]; rfl
  have hlastv : (((getSortedStations t).getLast?.map (·.position)).getD 0) =
      lastSt.position := by rw [hlastSt]; rfl
  have hps_last : ((getSortedStations t).map (·.position)).getLast? =
      some lastSt.position := by
    rw [List.getLast?_map, hlastSt]; rfl
  have hrest_ne : rest ≠ [] := by
    intro hnil
    rw [hse, hnil] at hlen_sorted
    simp at hlen_sorted
    omega
  have hlast_in_rest : lastSt ∈ rest := by
    have h1 : (s0 :: rest).getLast? = some lastSt := by rw [← hse]; exact hlastSt
    cases rest with
    | nil => exact absurd rfl hrest_ne
    | cons r1 rs =>
      rw [List.getLast?_cons_cons] at h1
      exact List.mem_of_getLast?_eq_some h1
  have hps_shape : (getSortedStations t).map (·.position) =
      s0.position :: rest.map (·.position) := by rw [hse]; rfl
  have hfl : s0.position < lastSt.position := by
    have := (List.pairwise_cons.mp (hps_shape ▸ hps_lt)).1
    exact this lastSt.position (List.mem_map.mpr ⟨lastSt, hlast_in_rest, rfl⟩)
  -- counts
  set n := denseCount (getSortedStations t).length cfg.stationMultiplier with hn
  have hn2 : 2 ≤ n := le_max_left _ _
  have hdpos : (0:ℚ) < (n:ℚ) - 1 := by
    have : (2:ℚ) ≤ (n:ℚ) := by exact_mod_cast hn2
    linarith
  have hΔ : (0:ℚ) < lastSt.position - s0.position := sub_pos.mpr hfl
  refine ⟨?_, ?_, ?_⟩
  · rw [hinterp, List.length_map]
    unfold densePositions
    rw [List.length_map, List.length_range, hn, hlen_sorted]
  · rw [hpos, hfirstv, hlastv]
    unfold densePositions
    rw [List.chain'_iff_get]
    intro i hi
    rw [List.length_map, List.length_range] at hi
    rw [List.get_map, List.get_map, List.get_range, List.get_range]
    have h1 : (i:ℚ) / ((n:ℚ)-1) < ((i+1:ℕ):ℚ) / ((n:ℚ)-1) := by
      rw [div_lt_div_iff hdpos hdpos]
      have hcast : (i:ℚ) < ((i+1:ℕ):ℚ) := by push_cast; linarith
      nlinarith
    exact add_lt_add_right (mul_lt_mul_of_pos_right h1 hΔ) _
  · refine ⟨s0.position, lastSt.position, ?_, ?_, ?_, ?_⟩
    · exact (hperm.map (·.position)).mem_iff.mp
        (List.mem_map.mpr ⟨s0, by rw [hse]; simp, rfl⟩)
    · exact (hperm.map (·.position)).mem_iff.mp
        (List.mem_map.mpr ⟨lastSt, by rw [hse]; simp [hlast_in_rest], rfl⟩)
    · intro q hq
      have hq' : q ∈ (getSortedStations t).map (·.position) :=
        (hperm.map (·.position)).mem_iff.mpr hq
      constructor
      · rw [hps_shape] at hq'
        rcases List.mem_cons.mp hq' with rfl | hq''
        · exact le_refl _
        · exact (List.pairwise_cons.mp (hps_shape ▸ hps_le)).1 q hq''
      · exact pairwise_le_last _ hps_le q hq' lastSt.position hps_last
    · intro p hp
      rw [hpos, hfirstv, hlastv] at hp
      unfold densePositions at hp
      simp only [List.mem_map, List.mem_range] at hp
      obtain ⟨i, hi, rfl⟩ := hp
      have ht0 : (0:ℚ) ≤ (i:ℚ) / ((n:ℚ)-1) :=
        div_nonneg (by positivity) hdpos.le
      have ht1 : (i:ℚ) / ((n:ℚ)-1) ≤ 1 := by
        rw [div_le_one hdpos]
        have : (i:ℚ) + 1 ≤ (n:ℚ) := by exact_mod_cast hi
        linarith
      constructor
      · nlinarith
      · nlinarith

/-- C6 — counterexample to the unamended claim: a 2-station table whose
stations carry no waterline samples satisfies every hypothesis of the
claim (`N = 2 ≥ 2`, distinct positions, `m = 2 > 1`), yet the
interpolator returns the table unchanged (2 stations), not the claimed
`max(2, round((N−1)·m)+1) = 3` stations: the empty waterline grid takes
the warn-and-return-input path. -/
theorem c6_counterexample :
    T6.stations.length = 2 ∧
    (T6.stations.map (·.position)).Nodup ∧
    (1:ℚ) < cfg6.stationMultiplier ∧
    (interpolateHullGrid T6 cfg6).stations.length = 2 ∧
    denseCount T6.stations.length cfg6.stationMultiplier = 3 := by
  with_unfolding_all decide

/-- Witness for `c6_densification`: the 3-station meter table at
station multiplier 2 densifies to `max(2, round(2·2)+1) = 5` strictly
increasing station positions inside the original span. -/
theorem c6_densification_witness :
    2 ≤ T3.stations.length ∧
    (T3.stations.map (·.position)).Nodup ∧
    (1:ℚ) < (2:ℚ) ∧
    getSortedWaterlines T3 ≠ [] ∧
    (interpolateHullGrid T3 ⟨2, 2, true⟩).stations.length =
      denseCount T3.stations.length 2 := by
  refine ⟨by with_unfolding_all decide, by with_unfolding_all decide,
    by norm_num, by with_unfolding_all decide, ?_⟩
  exact (c6_densification T3 ⟨2, 2, true⟩ (by with_unfolding_all decide)
    (by with_unfolding_all decide) (by norm_num)
    (by with_unfolding_all decide)).1

/-- Negation never creates a NaN. -/
theorem isNaNb_neg (a : F) (h : a.isNaNb = false) : a.neg.isNaNb = false := by
  cases a <;> simp [F.neg, F.isNaNb] at *

/-- Multiplication by a nonzero finite factor never creates a NaN. -/
theorem isNaNb_mul_fin (a : F) (q : ℚ) (h : a.isNaNb = false) (hq : q ≠ 0) :
    (a.mul (F.fin q)).isNaNb = false := by
  cases a <;> simp [F.mul, F.isNaNb, hq] at *

/-- `flatCoords` distributes over append. -/
theorem flatCoords_append (l b : List FVec3) :
    flatCoords (l ++ b) = flatCoords l ++ flatCoords b := by
  induction l with
  | nil => rfl
  | cons v rest ih => simpa [flatCoords] using ih

/-- NaN-freedom of a concatenated buffer. -/
theorem any_isNaNb_append (l b : List FVec3)
    (hl : (flatCoords l).any F.isNaNb = false)
    (hb : (flatCoords b).any F.isNaNb = false) :
    (flatCoords (l ++ b)).any F.isNaNb = false := by
  rw [flatCoords_append, List.any_append, hl, hb]
  rfl

/-- NaN-freedom of a single-vertex buffer. -/
theorem any_isNaNb_single (v : FVec3) (hx : v.x.isNaNb = false)
    (hy : v.y.isNaNb = false) (hz : v.z.isNaNb = false) :
    (flatCoords [v]).any F.isNaNb = false := by
  simp [flatCoords, hx, hy, hz]

/-- One `F`-vertex-generation step keeps the buffer NaN-free: the
per-vertex `isNaN` guard rejects NaN breadths, centerline keel/chine
vertices are built from non-NaN components only. -/
theorem genWaterlineStepF_noNaN (scale : ℚ) (hK hC : Bool) (sIdx : ℕ)
    (station : StationF) (wIdx : ℕ) (wH : ℚ) (acc : GenAccF)
    (h : (flatCoords acc.vertices).any F.isNaNb = false) :
    (flatCoords (genWaterlineStepF scale hK hC sIdx station wIdx wH
      acc).vertices).any F.isNaNb = false := by
  unfold genWaterlineStepF
  cases hfind : station.waterlines.find? (fun wl => wl.height = wH) with
  | none => exact h
  | some wlData =>
    simp only []
    split
    · exact h
    · next hguard =>
      simp only [List.any_cons, List.any_nil, Bool.or_eq_true, not_or,
        Bool.not_eq_true] at hguard
      obtain ⟨hxp, hxs, -⟩ := hguard
      have hconst : (8:ℚ) / 10 ≠ 0 := by norm_num
      by_cases hk : (hK && wIdx == 0) = true
      · by_cases hc : (hC && wIdx == 0) = true
        · simp only [hk, hc, if_true]
          exact any_isNaNb_append _ _ (any_isNaNb_append _ _
            (any_isNaNb_append _ _ (any_isNaNb_append _ _
              (any_isNaNb_append _ _ h (any_isNaNb_single _ rfl rfl rfl))
              (any_isNaNb_single _ hxs rfl rfl))
              (any_isNaNb_single _ (isNaNb_neg _ hxp) rfl rfl))
            (any_isNaNb_single _ (isNaNb_mul_fin _ _ hxs hconst) rfl rfl))
            (any_isNaNb_single _
              (isNaNb_neg _ (isNaNb_mul_fin _ _ hxp hconst)) rfl rfl)
        · simp only [hk, hc, if_true, Bool.false_eq_true, if_false]
          exact any_isNaNb_append _ _ (any_isNaNb_append _ _
            (any_isNaNb_append _ _ h (any_isNaNb_single _ rfl rfl rfl))
            (any_isNaNb_single _ hxs rfl rfl))
            (any_isNaNb_single _ (isNaNb_neg _ hxp) rfl rfl)
      · by_cases hc : (hC && wIdx == 0) = true
        · simp only [hk, hc, if_true, Bool.false_eq_true, if_false]
          exact any_isNaNb_append _ _ (any_isNaNb_append _ _
            (any_isNaNb_append _ _ (any_isNaNb_append _ _ h
              (any_isNaNb_single _ hxs rfl rfl))
              (any_isNaNb_single _ (isNaNb_neg _ hxp) rfl rfl))
            (any_isNaNb_single _ (isNaNb_mul_fin _ _ hxs hconst) rfl rfl))
            (any_isNaNb_single _
              (isNaNb_neg _ (isNaNb_mul_fin _ _ hxp hconst)) rfl rfl)
        · simp only [hk, hc, Bool.false_eq_true, if_false]
          exact any_isNaNb_append _ _ (any_isNaNb_append _ _ h
            (any_isNaNb_single _ hxs rfl rfl))
            (any_isNaNb_single _ (isNaNb_neg _ hxp) rfl rfl)

/-- The `F` vertex generator never emits a NaN coordinate. -/
theorem generateVerticesF_noNaN (scale : ℚ) (t : QuoteTableF) :
    (flatCoords (generateVerticesF scale t).vertices).any F.isNaNb = false := by
  unfold generateVerticesF
  have hinner : ∀ (sp : ℕ × StationF) (wps : List (ℕ × ℚ)) (acc : GenAccF),
      (flatCoords acc.vertices).any F.isNaNb = false →
      (flatCoords ((wps.foldl (fun acc wp =>
        genWaterlineStepF scale (t.metadata.hasKeel.getD false)
          (t.metadata.hasChine.getD false) sp.1 sp.2 wp.1 wp.2 acc))
        acc).vertices).any F.isNaNb = false := by
    intro sp wps
    induction wps with
    | nil => exact fun acc h => h
    | cons wp rest ih =>
      intro acc h
      simp only [List.foldl_cons]
      exact ih _ (genWaterlineStepF_noNaN _ _ _ _ _ _ _ _ h)
  have houter : ∀ (sps : List (ℕ × StationF)) (acc : GenAccF),
      (flatCoords acc.vertices).any F.isNaNb = false →
      (flatCoords ((sps.foldl (fun acc sp =>
        (getSortedWaterlinesF t).enum.foldl (fun acc wp =>
          genWaterlineStepF scale (t.metadata.hasKeel.getD false)
            (t.metadata.hasChine.getD false) sp.1 sp.2 wp.1 wp.2 acc) acc))
        acc).vertices).any F.isNaNb = false := by
    intro sps
    induction sps with
    | nil => exact fun acc h => h
    | cons sp rest ih =>
      intro acc h
      simp only [List.foldl_cons]
      exact ih _ (hinner sp _ acc h)
  exact houter _ ⟨[], [], []⟩ rfl

/-- C7 (amended) — NaN abort and zero-face abort: the mesh build either
returns the explicit empty placeholder or a geometry whose vertex buffer
contains no NaN and whose index list is nonempty; indeed the per-vertex
validation keeps NaN out of the buffer altogether, so the final NaN scan
never propagates a NaN. (Infinite coordinates, by contrast, are not
detected — see the counterexample.) -/
theorem c7_nan_abort (t : QuoteTableF) :
    ((flatCoords (generateVerticesF (getUnitScale t.metadata.units)
      t).vertices).any F.isNaNb = false) ∧
    (generateStructuredHullGeometryF t = createEmptyHullGeometryF ∨
      ((flatCoords (generateStructuredHullGeometryF t).vertices).any
        F.isNaNb = false ∧
       (generateStructuredHullGeometryF t).indices ≠ [])) := by
  refine ⟨generateVerticesF_noNaN _ t, ?_⟩
  simp only [generateStructuredHullGeometryF]
  split
  · exact Or.inl rfl
  · next hlen =>
    split
    · exact Or.inl rfl
    · next hnan =>
      refine Or.inr ⟨by simpa using hnan, ?_⟩
      intro hnil
      apply hlen
      right
      rw [List.length_eq_zero]
      exact hnil

/-- C7 — counterexample to the unamended claim: a table with an infinite
half-breadth passes the `isNaN`-only validation, so the build does *not*
abort — it returns a non-placeholder geometry whose vertex buffer
contains an infinite coordinate. -/
theorem c7_counterexample :
    generateStructuredHullGeometryF tInf ≠ createEmptyHullGeometryF ∧
    (flatCoords (generateStructuredHullGeometryF tInf).vertices).any
      (fun c => c = F.inf false) = true := by
  with_unfolding_all decide

set_option maxRecDepth 8000 in
/-- C8 — the deck-group test mixes unit systems: `organizeGeometryGroups`
compares *scaled* face centroids against the *raw* (unscaled) top
waterline height. On the millimetre table `tmm` the first top-row face
satisfies the claimed predicate (its scaled centroid height is within
0.01 scaled units of the scaled top waterline), yet the deck group comes
out empty; the identical hull expressed in metres (scale 1, where raw =
scaled) does get a nonempty deck group. -/
theorem c8_deck_group_unit_mismatch :
    (let acc := generateVertices (getUnitScale tmm.metadata.units) tmm
     let indices := generateFaces tmm acc.vmap acc.keel
     let topWL := (getSortedWaterlines tmm).getLast?.getD 0
     |(faceCentroid acc.vertices ((indices.get? 12).getD 0)
         ((indices.get? 13).getD 0) ((indices.get? 14).getD 0)).y -
       getUnitScale tmm.metadata.units * topWL| < 1 / 100) ∧
    (hullGroups tmm ⟨1, 1, false⟩).deck = [] ∧
    (hullGroups tmeters ⟨1, 1, false⟩).deck ≠ [] := by
  refine ⟨by with_unfolding_all decide, by with_unfolding_all decide,
    by with_unfolding_all decide⟩

/-- C4 — counterexample to the unamended claim: removing the interior
station's height-1 sample from `tC4` does not reduce the face count — it
*raises* it from 0 to 8, because the deleted height disappears from the
global sorted-waterline grid, turning the previously unfillable panels
into complete ones. -/
theorem c4_counterexample :
    tC4r = removeWaterlineSample tC4 1 1 ∧
    (triangles facesC4).length = 0 ∧
    (triangles facesC4r).length = 8 := by
  refine ⟨rfl, by with_unfolding_all decide, by with_unfolding_all decide⟩

/-- C4 (amended) — the skip property: whenever any of the eight corner
vertices required for a (station, waterline) panel is missing from the
vertex lookup, `generatePanelFaces` leaves the accumulated index list
exactly as it was — the panel is skipped, no faces are emitted and
previously generated faces are untouched, whatever the keel/chine flags;
in particular generation never fails on sparse input. -/
theorem c4_panel_skip (indices : List ℕ) (m : VMap) (keel : List ℕ)
    (s w : ℕ) (hasKeel hasChine : Bool)
    (h : areAllPanelVerticesValid (getPanelVertices m s w) = false) :
    generatePanelFaces indices m keel s w hasKeel hasChine = indices := by
  simp [generatePanelFaces, h]

/-- Witness for `c4_panel_skip`: the empty vertex map invalidates the
(0, 0) panel, and the face list `[5]` survives unchanged. -/
theorem c4_panel_skip_witness :
    areAllPanelVerticesValid (getPanelVertices [] 0 0) = false ∧
    generatePanelFaces [5] [] [] 0 0 true true = [5] :=
  ⟨by with_unfolding_all decide,
   c4_panel_skip [5] [] [] 0 0 true true (by with_unfolding_all decide)⟩

end HullSpec
